import Mathlib

/-!
# go-virtualbox: machine records, lifecycle commands and query parsing

A shallow embedding of `machine.go`.  The program drives an external
command-line tool; every method of `machine` either issues commands to that
tool or parses its textual answers.

* Go strings are Lean strings, Go `uint` values are natural numbers, a Go
  `error` result is an `Option Error` (`none` is `nil`), and a
  `(*machine, error)` result is an `Except Error machine`.
* The external tool is a parameter `T : Tool`: a function from the history of
  all commands issued so far (the last one being the command that is run) to
  what the tool prints and whether it fails.  The history doubles as the trace
  of external invocations, so "which commands were issued" is a statement about
  the returned `Log`.
* Methods with a pointer receiver return the record as it stands after the
  call, next to the error and the log (`Res`).
* The only unbounded loop, the polling loop of `Stop`, takes a fuel argument
  that bounds the number of iterations; `none` means the fuel ran out.
-/

namespace VirtualBox

/-! ## Data model -/

/-- Go `type MachineState string`. -/
abbrev MachineState := String

abbrev Poweroff : MachineState := "poweroff"

abbrev Running : MachineState := "running"

abbrev Paused : MachineState := "paused"

abbrev Saved : MachineState := "saved"

abbrev Aborted : MachineState := "aborted"

/-- Go `type Flag int`; bitwise operations are those of two's complement. -/
abbrev Flag := Int

abbrev F_acpi : Flag := 2 ^ 0

abbrev F_ioapic : Flag := 2 ^ 1

abbrev F_rtcuseutc : Flag := 2 ^ 2

abbrev F_cpuhotplug : Flag := 2 ^ 3

abbrev F_pae : Flag := 2 ^ 4

abbrev F_longmode : Flag := 2 ^ 5

abbrev F_synthcpu : Flag := 2 ^ 6

abbrev F_hpet : Flag := 2 ^ 7

abbrev F_hwvirtex : Flag := 2 ^ 8

abbrev F_triplefaultreset : Flag := 2 ^ 9

abbrev F_nestedpaging : Flag := 2 ^ 10

abbrev F_largepages : Flag := 2 ^ 11

abbrev F_vtxvpid : Flag := 2 ^ 12

abbrev F_vtxux : Flag := 2 ^ 13

abbrev F_accelerate3d : Flag := 2 ^ 14

/-- Convert bool to "on"/"off". -/
def bool2string (b : Bool) : String :=
  if b then "on" else "off"

/-- Test if flag is set: `bool2string(f&o == o)`. -/
def Flag.Get (f o : Flag) : String :=
  bool2string (decide (Int.land f o = o))

/-- Machine information: the struct `machine`. -/
structure machine where
  name : String := ""
  uUID : String := ""
  state : MachineState := ""
  cPUs : Nat := 0
  memory : Nat := 0
  vRAM : Nat := 0
  cfgFile : String := ""
  baseFolder : String := ""
  oSType : String := ""
  flag : Flag := 0
  bootOrder : List String := []
deriving DecidableEq, Repr

/-- Error values that the functions of `machine.go` can return. -/
inductive Error where
  /-- The package error `ErrMachineExist`. -/
  | ErrMachineExist
  /-- The package error `ErrMachineNotExist`. -/
  | ErrMachineNotExist
  /-- An error built by `fmt.Errorf`. -/
  | errorf (msg : String)
  /-- A `*strconv.NumError` for the numeral `num`; `range` tells `ErrRange`
  from `ErrSyntax`. -/
  | numError (num : String) (range : Bool)
  /-- The scanner error `bufio.ErrTooLong`. -/
  | ErrTooLong
  /-- The error the command runner hands back when the tool fails. -/
  | tool (msg : String)
deriving DecidableEq, Repr

deriving instance DecidableEq for Except

/-! ## The external tool -/

/-- One invocation of the tool: its argument vector. -/
abbrev Command := List String

/-- The commands issued so far, oldest first. -/
abbrev Log := List Command

/-- What one invocation yields: both output streams and the failure, if any. -/
structure Output where
  stdout : String := ""
  stderr : String := ""
  err : Option String := none
deriving DecidableEq, Repr

/-- The external tool, as a function of the whole history of commands (the
command being run is the last entry). -/
abbrev Tool := Log → Output

/-- Modelled from the spec: the command runner `vbmOutErr` (declared outside
machine.go), one synchronous invocation of the external tool that captures
standard output, standard error and the failure. -/
def vbmOutErr (T : Tool) (args : Command) (log : Log) : Output × Log :=
  (T (log ++ [args]), log ++ [args])

/-- Modelled from the spec: the command runner `vbmOut`, one invocation that
captures standard output and the failure. -/
def vbmOut (T : Tool) (args : Command) (log : Log) : (String × Option Error) × Log :=
  (((T (log ++ [args])).stdout, (T (log ++ [args])).err.map Error.tool), log ++ [args])

/-- Modelled from the spec: the command runner `vbm`, one invocation of which
only the failure is kept. -/
def vbm (T : Tool) (args : Command) (log : Log) : Option Error × Log :=
  ((T (log ++ [args])).err.map Error.tool, log ++ [args])

/-- The regular expressions `reVMNameUUID`, `reVMInfoLine` and
`reMachineNotFound` are declared outside machine.go; they enter as parameters.
`reVMNameUUID` and `reVMInfoLine` stand for `FindStringSubmatch` and give the
capture groups `res[1..]` of the leftmost match, `reMachineNotFound` stands for
`FindString` and gives the matched text, empty when there is no match. -/
structure Patterns where
  reVMNameUUID : String → Option (String × String)
  reVMInfoLine : String → Option (String × String × String × String)
  reMachineNotFound : String → String

/-! ## Library functions used by the parser -/

/-- The scanner constant `bufio.MaxScanTokenSize`. -/
def MaxScanTokenSize : Nat := 64 * 1024

/-- The text cut at each newline, as `bufio.ScanLines` does: a final line
without newline counts when it is not empty. -/
def rawLines : List Char → List (List Char)
  | [] => []
  | c :: cs =>
    if c = '\n' then [] :: rawLines cs
    else
      match rawLines cs with
      | [] => [[c]]
      | l :: ls => (c :: l) :: ls

/-- The scanner helper `dropCR`: drop one trailing carriage return. -/
def dropCR (l : List Char) : List Char :=
  if l.getLast? = some '\r' then l.dropLast else l

/-- The tokens a `bufio.Scanner` with the split function `ScanLines` delivers
from the raw lines, and the value of `Err()` afterwards: a raw line that does
not fit the buffer of `MaxScanTokenSize` bytes stops the scan with
`ErrTooLong`. -/
def scanTokens : List (List Char) → List String × Option Error
  | [] => ([], none)
  | l :: ls =>
    if MaxScanTokenSize ≤ (String.mk l).utf8ByteSize then ([], some Error.ErrTooLong)
    else (String.mk (dropCR l) :: (scanTokens ls).1, (scanTokens ls).2)

/-- A `bufio.Scanner` over `strings.NewReader(s)`: the lines seen by the loop
`for s.Scan()` and the final `s.Err()`. -/
def scanLines (s : String) : List String × Option Error :=
  scanTokens (rawLines s.toList)

/-- Value of a digit or letter as `strconv.ParseUint` reads it. -/
def digitVal (c : Char) : Option Nat :=
  if 48 ≤ c.toNat ∧ c.toNat ≤ 57 then some (c.toNat - 48)
  else if 97 ≤ c.toNat ∧ c.toNat ≤ 122 then some (c.toNat - 97 + 10)
  else if 65 ≤ c.toNat ∧ c.toNat ≤ 90 then some (c.toNat - 65 + 10)
  else none

/-- The digit loop of `strconv.ParseUint`, on 64-bit unsigned arithmetic. -/
def ParseUint.loop (s0 : String) (base maxVal cutoff : Nat) :
    List Char → Nat → Except Error Nat
  | [], n => .ok n
  | c :: cs, n =>
    match digitVal c with
    | none => .error (.numError s0 false)
    | some d =>
      if base ≤ d then .error (.numError s0 false)
      else if cutoff ≤ n then .error (.numError s0 true)
      else
        let n10 := (n * base) % 2 ^ 64
        let n1 := (n10 + d) % 2 ^ 64
        if n1 < n10 ∨ maxVal < n1 then .error (.numError s0 true)
        else ParseUint.loop s0 base maxVal cutoff cs n1

/-- Go `strconv.ParseUint(s, base, bitSize)` for an explicit base between 2
and 36 (machine.go always passes base 10 and bit size 32). -/
def ParseUint (s : String) (base bitSize : Nat) : Except Error Nat :=
  if s = "" then .error (.numError s false)
  else ParseUint.loop s base (2 ^ bitSize - 1) ((2 ^ 64 - 1) / base + 1) s.toList 0

/-- The pieces of a path between its separators. -/
def pathElems : List Char → List (List Char)
  | [] => [[]]
  | c :: cs =>
    if c = '/' then [] :: pathElems cs
    else
      match pathElems cs with
      | [] => [[c]]
      | l :: ls => (c :: l) :: ls

/-- One element processed by `filepath.Clean`; the elements kept so far are
held last-first. -/
def cleanStep (rooted : Bool) (kept : List (List Char)) (el : List Char) :
    List (List Char) :=
  if el = [] ∨ el = ['.'] then kept
  else if el = ['.', '.'] then
    match kept with
    | [] => if rooted then [] else [el]
    | top :: rest => if top = ['.', '.'] then el :: kept else rest
  else el :: kept

/-- Go `filepath.Clean` with the separator `/`. -/
def filepathClean (p : List Char) : List Char :=
  if p = [] then ['.']
  else
    let rooted := decide (p.head? = some '/')
    let kept := (pathElems p).foldl (cleanStep rooted) []
    let body := List.intercalate ['/'] kept.reverse
    let out := if rooted then '/' :: body else body
    if out = [] then ['.'] else out

/-- Go `filepath.Dir` with the separator `/`: everything up to the last
separator, cleaned. -/
def filepathDir (path : String) : String :=
  String.mk (filepathClean (path.toList.reverse.dropWhile (fun c => c ≠ '/')).reverse)

/-! ## Querying and parsing (getMachine, listMachines, createMachine) -/

/-- The key of a matched line: `key := res[1]; if key == "" { key = res[2] }`. -/
def infoKey (res : String × String × String × String) : String :=
  if res.1 = "" then res.2.1 else res.1

/-- The value of a matched line: `val := res[3]; if val == "" { val = res[4] }`. -/
def infoVal (res : String × String × String × String) : String :=
  if res.2.2.1 = "" then res.2.2.2 else res.2.2.1

/-- The `switch key` of getMachine: one key and value applied to the record
under construction. -/
def getMachine.assign (key val : String) (m : machine) : Except Error machine :=
  if key = "name" then .ok { m with name := val }
  else if key = "UUID" then .ok { m with uUID := val }
  else if key = "VMState" then .ok { m with state := val }
  else if key = "memory" then
    match ParseUint val 10 32 with
    | .error e => .error e
    | .ok n => .ok { m with memory := n }
  else if key = "cpus" then
    match ParseUint val 10 32 with
    | .error e => .error e
    | .ok n => .ok { m with cPUs := n }
  else if key = "vram" then
    match ParseUint val 10 32 with
    | .error e => .error e
    | .ok n => .ok { m with vRAM := n }
  else if key = "CfgFile" then .ok { m with cfgFile := val, baseFolder := filepathDir val }
  else .ok m

/-- The loop `for s.Scan()` of getMachine over the scanned lines. -/
def getMachine.scan (P : Patterns) : List String → machine → Except Error machine
  | [], m => .ok m
  | line :: rest, m =>
    match P.reVMInfoLine line with
    | none => getMachine.scan P rest m
    | some res =>
      match getMachine.assign (infoKey res) (infoVal res) m with
      | .error e => .error e
      | .ok m1 => getMachine.scan P rest m1

/-- The part of getMachine that follows a successful query: scan the output
into a fresh record, then check the scanner error. -/
def getMachine.parse (P : Patterns) (stdout : String) : Except Error machine :=
  match getMachine.scan P (scanLines stdout).1 {} with
  | .error e => .error e
  | .ok m =>
    match (scanLines stdout).2 with
    | some e => .error e
    | none => .ok m

/-- GetMachine finds a machine by its name or UUID. -/
def getMachine (P : Patterns) (T : Tool) (id : String) (log : Log) :
    Except Error machine × Log :=
  let r := vbmOutErr T ["showvminfo", id, "--machinereadable"] log
  match r.1.err with
  | some e =>
    if P.reMachineNotFound r.1.stderr ≠ "" then (.error .ErrMachineNotExist, r.2)
    else (.error (.tool e), r.2)
  | none => (getMachine.parse P r.1.stdout, r.2)

/-- The loop `for s.Scan()` of listMachines over the scanned lines. -/
def listMachines.scan (P : Patterns) (T : Tool) :
    List String → List machine → Log → Except Error (List machine) × Log
  | [], ms, log => (.ok ms, log)
  | line :: rest, ms, log =>
    match P.reVMNameUUID line with
    | none => listMachines.scan P T rest ms log
    | some res =>
      match (getMachine P T res.1 log).1 with
      | .error e => (.error e, (getMachine P T res.1 log).2)
      | .ok m => listMachines.scan P T rest (ms ++ [m]) (getMachine P T res.1 log).2

/-- ListMachines lists all registered machines. -/
def listMachines (P : Patterns) (T : Tool) (log : Log) :
    Except Error (List machine) × Log :=
  let r := vbmOut T ["list", "vms"] log
  match r.1.2 with
  | some e => (.error e, r.2)
  | none =>
    match (listMachines.scan P T (scanLines r.1.1).1 [] r.2).1 with
    | .error e => (.error e, (listMachines.scan P T (scanLines r.1.1).1 [] r.2).2)
    | .ok ms =>
      match (scanLines r.1.1).2 with
      | some e => (.error e, (listMachines.scan P T (scanLines r.1.1).1 [] r.2).2)
      | none => (.ok ms, (listMachines.scan P T (scanLines r.1.1).1 [] r.2).2)

/-- CreateMachine creates a new machine. If basefolder is empty, use default. -/
def createMachine (P : Patterns) (T : Tool) (name basefolder : String) (log : Log) :
    Except Error machine × Log :=
  if name = "" then (.error (.errorf "machine name is empty"), log)
  else
    match (listMachines P T log).1 with
    | .error e => (.error e, (listMachines P T log).2)
    | .ok ms =>
      if ms.any (fun m => decide (m.name = name)) then
        (.error .ErrMachineExist, (listMachines P T log).2)
      else
        let args := ["createvm", "--name", name, "--register"]
        let args := if basefolder ≠ "" then args ++ ["--basefolder", basefolder] else args
        match (vbm T args (listMachines P T log).2).1 with
        | some e => (.error e, (vbm T args (listMachines P T log).2).2)
        | none => getMachine P T name (vbm T args (listMachines P T log).2).2

/-! ## Lifecycle methods -/

/-- Result of a method with receiver `m *machine`: the returned error, the
record after the call and the commands issued so far. -/
structure Res where
  err : Option Error
  m : machine
  log : Log
deriving DecidableEq, Repr

/-- Refresh reloads the machine information. -/
def machine.Refresh (P : Patterns) (T : Tool) (m : machine) (log : Log) : Res :=
  let id := if m.name = "" then m.uUID else m.name
  match (getMachine P T id log).1 with
  | .error e => ⟨some e, m, (getMachine P T id log).2⟩
  | .ok mm => ⟨none, mm, (getMachine P T id log).2⟩

/-- Start starts the machine. -/
def machine.Start (T : Tool) (m : machine) (log : Log) : Res :=
  if m.state = Paused then
    ⟨(vbm T ["controlvm", m.name, "resume"] log).1, m,
      (vbm T ["controlvm", m.name, "resume"] log).2⟩
  else if m.state = Poweroff ∨ m.state = Saved ∨ m.state = Aborted then
    ⟨(vbm T ["startvm", m.name, "--type", "headless"] log).1, m,
      (vbm T ["startvm", m.name, "--type", "headless"] log).2⟩
  else ⟨none, m, log⟩

/-- Suspend suspends the machine and saves its state to disk. -/
def machine.Save (T : Tool) (m : machine) (log : Log) : Res :=
  if m.state = Paused then
    match (m.Start T log).err with
    | some e => ⟨some e, (m.Start T log).m, (m.Start T log).log⟩
    | none =>
      ⟨(vbm T ["controlvm", m.name, "savestate"] (m.Start T log).log).1, (m.Start T log).m,
        (vbm T ["controlvm", m.name, "savestate"] (m.Start T log).log).2⟩
  else if m.state = Poweroff ∨ m.state = Aborted ∨ m.state = Saved then ⟨none, m, log⟩
  else
    ⟨(vbm T ["controlvm", m.name, "savestate"] log).1, m,
      (vbm T ["controlvm", m.name, "savestate"] log).2⟩

/-- Pause pauses the execution of the machine. -/
def machine.Pause (T : Tool) (m : machine) (log : Log) : Res :=
  if m.state = Paused ∨ m.state = Poweroff ∨ m.state = Aborted ∨ m.state = Saved then
    ⟨none, m, log⟩
  else
    ⟨(vbm T ["controlvm", m.name, "pause"] log).1, m,
      (vbm T ["controlvm", m.name, "pause"] log).2⟩

/-- The loop `for m.state != Poweroff` of Stop; `fuel` bounds the number of
iterations and `none` means that it ran out.  The one-second sleep between
the command and the re-query has no effect on the record or on the tool. -/
def machine.Stop.loop (P : Patterns) (T : Tool) : Nat → machine → Log → Option Res
  | 0, m, log => if m.state = Poweroff then some ⟨none, m, log⟩ else none
  | fuel + 1, m, log =>
    if m.state = Poweroff then some ⟨none, m, log⟩
    else
      match (vbm T ["controlvm", m.name, "acpipowerbutton"] log).1 with
      | some e => some ⟨some e, m, (vbm T ["controlvm", m.name, "acpipowerbutton"] log).2⟩
      | none =>
        let r := m.Refresh P T (vbm T ["controlvm", m.name, "acpipowerbutton"] log).2
        match r.err with
        | some e => some ⟨some e, r.m, r.log⟩
        | none => machine.Stop.loop P T fuel r.m r.log

/-- Stop gracefully stops the machine. -/
def machine.Stop (P : Patterns) (T : Tool) (fuel : Nat) (m : machine) (log : Log) :
    Option Res :=
  if m.state = Poweroff ∨ m.state = Aborted ∨ m.state = Saved then some ⟨none, m, log⟩
  else if m.state = Paused then
    match (m.Start T log).err with
    | some e => some ⟨some e, (m.Start T log).m, (m.Start T log).log⟩
    | none => machine.Stop.loop P T fuel (m.Start T log).m (m.Start T log).log
  else machine.Stop.loop P T fuel m log

/-- Poweroff forcefully stops the machine. State is lost and might corrupt the
disk image. -/
def machine.Poweroff (T : Tool) (m : machine) (log : Log) : Res :=
  if m.state = VirtualBox.Poweroff ∨ m.state = Aborted ∨ m.state = Saved then ⟨none, m, log⟩
  else
    ⟨(vbm T ["controlvm", m.name, "poweroff"] log).1, m,
      (vbm T ["controlvm", m.name, "poweroff"] log).2⟩

/-- The tail of Restart after the optional first Start: Stop, then Start. -/
def machine.Restart.rest (P : Patterns) (T : Tool) (fuel : Nat) (m : machine) (log : Log) :
    Option Res :=
  match m.Stop P T fuel log with
  | none => none
  | some r =>
    match r.err with
    | some e => some ⟨some e, r.m, r.log⟩
    | none => some (r.m.Start T r.log)

/-- Restart gracefully restarts the machine. -/
def machine.Restart (P : Patterns) (T : Tool) (fuel : Nat) (m : machine) (log : Log) :
    Option Res :=
  if m.state = Paused ∨ m.state = Saved then
    match (m.Start T log).err with
    | some e => some ⟨some e, (m.Start T log).m, (m.Start T log).log⟩
    | none => machine.Restart.rest P T fuel (m.Start T log).m (m.Start T log).log
  else machine.Restart.rest P T fuel m log

/-- Reset forcefully restarts the machine. State is lost and might corrupt the
disk image. -/
def machine.Reset (T : Tool) (m : machine) (log : Log) : Res :=
  if m.state = Paused ∨ m.state = Saved then
    match (m.Start T log).err with
    | some e => ⟨some e, (m.Start T log).m, (m.Start T log).log⟩
    | none =>
      ⟨(vbm T ["controlvm", m.name, "reset"] (m.Start T log).log).1, (m.Start T log).m,
        (vbm T ["controlvm", m.name, "reset"] (m.Start T log).log).2⟩
  else
    ⟨(vbm T ["controlvm", m.name, "reset"] log).1, m,
      (vbm T ["controlvm", m.name, "reset"] log).2⟩

/-- Delete deletes the machine and associated disk images. -/
def machine.Delete (T : Tool) (m : machine) (log : Log) : Res :=
  match (m.Poweroff T log).err with
  | some e => ⟨some e, (m.Poweroff T log).m, (m.Poweroff T log).log⟩
  | none =>
    ⟨(vbm T ["unregistervm", m.name, "--delete"] (m.Poweroff T log).log).1,
      (m.Poweroff T log).m,
      (vbm T ["unregistervm", m.name, "--delete"] (m.Poweroff T log).log).2⟩

/-! ## Modify -/

/-- The fixed part of the `modifyvm` command built by Modify. -/
def machine.Modify.fixedArgs (m : machine) : Command :=
  ["modifyvm", m.name,
    "--firmware", "bios",
    "--bioslogofadein", "off",
    "--bioslogofadeout", "off",
    "--bioslogodisplaytime", "0",
    "--biosbootmenu", "disabled",
    "--ostype", m.oSType,
    "--cpus", toString m.cPUs,
    "--memory", toString m.memory,
    "--vram", toString m.vRAM,
    "--acpi", m.flag.Get F_acpi,
    "--ioapic", m.flag.Get F_ioapic,
    "--rtcuseutc", m.flag.Get F_rtcuseutc,
    "--cpuhotplug", m.flag.Get F_cpuhotplug,
    "--pae", m.flag.Get F_pae,
    "--longmode", m.flag.Get F_longmode,
    "--synthcpu", m.flag.Get F_synthcpu,
    "--hpet", m.flag.Get F_hpet,
    "--hwvirtex", m.flag.Get F_hwvirtex,
    "--triplefaultreset", m.flag.Get F_triplefaultreset,
    "--nestedpaging", m.flag.Get F_nestedpaging,
    "--largepages", m.flag.Get F_largepages,
    "--vtxvpid", m.flag.Get F_vtxvpid,
    "--vtxux", m.flag.Get F_vtxux,
    "--accelerate3d", m.flag.Get F_accelerate3d]

/-- The loop `for i, dev := range m.bootOrder` of Modify, started at index `i`
with the arguments collected so far. -/
def machine.Modify.bootLoop : Nat → List String → Command → Command
  | _, [], args => args
  | i, dev :: rest, args =>
    if 3 < i then args
    else machine.Modify.bootLoop (i + 1) rest (args ++ ["--boot" ++ toString (i + 1), dev])

/-- The whole argument vector built by Modify. -/
def machine.Modify.args (m : machine) : Command :=
  machine.Modify.bootLoop 0 m.bootOrder (machine.Modify.fixedArgs m)

/-- Modify changes the settings of the machine. -/
def machine.Modify (P : Patterns) (T : Tool) (m : machine) (log : Log) : Res :=
  match (vbm T (machine.Modify.args m) log).1 with
  | some e => ⟨some e, m, (vbm T (machine.Modify.args m) log).2⟩
  | none => m.Refresh P T (vbm T (machine.Modify.args m) log).2

/-! ## The line patterns, modelled from the spec -/

/-- Cut a text at the last occurrence of the character `c`. -/
def splitAtLast (c : Char) : List Char → Option (List Char × List Char)
  | [] => none
  | x :: xs =>
    match splitAtLast c xs with
    | some (a, b) => some (x :: a, b)
    | none => if x = c then some ([], xs) else none

/-- Cut a text at the last occurrence of the two characters `c`, `d`. -/
def splitAtLastPair (c d : Char) : List Char → Option (List Char × List Char)
  | [] => none
  | x :: xs =>
    match splitAtLastPair c d xs with
    | some (a, b) => some (x :: a, b)
    | none =>
      match xs with
      | y :: ys => if x = c ∧ y = d then some ([], ys) else none
      | [] => none

/-- The value side of an information line: a quoted value gives group 3, an
unquoted one group 4. -/
def specInfoValue (v : List Char) : String × String :=
  match v with
  | '"' :: v1 =>
    match splitAtLast '"' v1 with
    | some (a, _) => (String.mk a, "")
    | none => ("", String.mk v)
  | _ => ("", String.mk v)

/-- The unquoted reading of an information line: key (group 2) up to the last
equals sign, not empty. -/
def specInfoPlain (l : List Char) : Option (String × String × String × String) :=
  match splitAtLast '=' l with
  | some (k, v) =>
    if k = [] then none
    else some ("", String.mk k, (specInfoValue v).1, (specInfoValue v).2)
  | none => none

/-- Modelled from the spec: the pattern `reVMInfoLine`, declared outside
machine.go.  A line matches when it reads `key=value`, where the key and the
value may each stand between double quotes; a quoted key is group 1, an
unquoted key group 2, a quoted value group 3 and an unquoted value group 4.
The key is not empty and runs as far right as possible. -/
def specInfoLine (line : String) : Option (String × String × String × String) :=
  match line.toList with
  | '"' :: l1 =>
    match splitAtLastPair '"' '=' l1 with
    | some (k, v) =>
      if k = [] then specInfoPlain line.toList
      else some (String.mk k, "", (specInfoValue v).1, (specInfoValue v).2)
    | none => specInfoPlain line.toList
  | l => specInfoPlain l

/-- Modelled from the spec: the pattern `reVMNameUUID`, declared outside
machine.go.  A listing line reads `"name" {UUID}`; group 1 is the name and
group 2 the UUID, neither of them empty. -/
def specNameUUID (line : String) : Option (String × String) :=
  match line.toList with
  | '"' :: l1 =>
    match splitAtLastPair '"' ' ' l1 with
    | some (n, r) =>
      match r with
      | '{' :: r1 =>
        match splitAtLast '}' r1 with
        | some (u, _) => if n = [] ∨ u = [] then none else some (String.mk n, String.mk u)
        | none => none
      | _ => none
    | none => none
  | _ => none

/-- Whether the text `pat` starts the text `l`. -/
def startsWith : List Char → List Char → Bool
  | [], _ => true
  | _ :: _, [] => false
  | p :: ps, x :: xs => decide (p = x) && startsWith ps xs

/-- Whether the text `pat` occurs in the text `l`. -/
def occursIn (pat : List Char) : List Char → Bool
  | [] => startsWith pat []
  | x :: xs => startsWith pat (x :: xs) || occursIn pat xs

/-- Modelled from the spec: the pattern `reMachineNotFound`, declared outside
machine.go, a search for the "machine not found" diagnostic in the error
stream.  The spec does not spell the diagnostic out; the text that the tool
prints for an unknown machine is used. -/
def specMachineNotFound (stderr : String) : String :=
  if occursIn "Could not find a registered machine named".toList stderr.toList then
    "Could not find a registered machine named"
  else ""

/-- The three patterns as modelled from the spec. -/
def specPatterns : Patterns where
  reVMNameUUID := specNameUUID
  reVMInfoLine := specInfoLine
  reMachineNotFound := specMachineNotFound

/-! ## Simulated tools and responses -/

/-- The query response of the spec's parsing example. -/
def web01Response : String :=
  "name=\"web01\"\nUUID=\"1234\"\nVMState=\"running\"\nmemory=\"2048\"\ncpus=\"2\"\nvram=\"16\"\nCfgFile=\"/vms/web01/web01.vbox\"\n"

/-- A tool with one registered machine, web01: it answers the listing with
one line and every other command with the query response of web01. -/
def web01Tool : Tool := fun log =>
  if log.getLast? = some ["list", "vms"] then { stdout := "\"web01\" \x7b1234\x7d\n" }
  else { stdout := web01Response }

/-! ## The spec side: what the claims say, as definitions -/

/-- The boot slots as the spec words them: the first four entries of the boot
order, in order, entry number i in slot `--boot<i>`. -/
def bootSlots : List String → Command
  | [] => []
  | [a] => ["--boot1", a]
  | [a, b] => ["--boot1", a, "--boot2", b]
  | [a, b, c] => ["--boot1", a, "--boot2", b, "--boot3", c]
  | a :: b :: c :: d :: _ => ["--boot1", a, "--boot2", b, "--boot3", c, "--boot4", d]

/-- The value a line gives to `key`: present when the line matches the
pattern and carries that key. -/
def lineValue (P : Patterns) (key line : String) : Option String :=
  match P.reVMInfoLine line with
  | some res => if infoKey res = key then some (infoVal res) else none
  | none => none

/-- The value of the last line with key `key`, if there is such a line. -/
def lastValue (P : Patterns) (key : String) : List String → Option String
  | [] => none
  | line :: rest =>
    match lastValue P key rest with
    | some v => some v
    | none => lineValue P key line

/-- The number a decimal numeral denotes. -/
def decimalValue (s : String) : Nat :=
  s.toList.foldl (fun n c => n * 10 + (c.toNat - 48)) 0

/-- An unsigned base-10 integer in the range 0..2^32-1: not empty, digits
only, value below 2^32. -/
def isDecimal32 (s : String) : Bool :=
  decide (s ≠ "") && s.toList.all (fun c => decide (48 ≤ c.toNat ∧ c.toNat ≤ 57)) &&
    decide (decimalValue s < 2 ^ 32)

/-- A line is harmless for the numeric fields: it does not match, or its key is
none of memory, cpus, vram, or its value is a decimal numeral in range. -/
def numericOK (P : Patterns) (line : String) : Bool :=
  match P.reVMInfoLine line with
  | some res =>
    if infoKey res = "memory" ∨ infoKey res = "cpus" ∨ infoKey res = "vram" then
      isDecimal32 (infoVal res)
    else true
  | none => true

/-- A line counts for the record: it matches and carries one of the seven
recognised keys. -/
def isInfoLine (P : Patterns) (line : String) : Bool :=
  match P.reVMInfoLine line with
  | some res =>
    decide (infoKey res ∈ ["name", "UUID", "VMState", "memory", "cpus", "vram", "CfgFile"])
  | none => false

/-- The record the spec describes for a list of lines, on top of `m0`. -/
def specRecord (P : Patterns) (lines : List String) (m0 : machine) : machine :=
  { m0 with
    name := (lastValue P "name" lines).getD m0.name
    uUID := (lastValue P "UUID" lines).getD m0.uUID
    state := (lastValue P "VMState" lines).getD m0.state
    memory := ((lastValue P "memory" lines).map decimalValue).getD m0.memory
    cPUs := ((lastValue P "cpus" lines).map decimalValue).getD m0.cPUs
    vRAM := ((lastValue P "vram" lines).map decimalValue).getD m0.vRAM
    cfgFile := (lastValue P "CfgFile" lines).getD m0.cfgFile
    baseFolder := ((lastValue P "CfgFile" lines).map filepathDir).getD m0.baseFolder }

/-- The lines of a response, as the text gives them: cut at the newlines, one
trailing carriage return dropped from each. -/
def responseLines (s : String) : List String :=
  (rawLines s.toList).map (fun l => String.mk (dropCR l))

/-- Whether a command is a detail query (`showvminfo`). -/
def isQuery (c : Command) : Bool :=
  decide (c.head? = some "showvminfo")

/-- The number of detail queries among some commands. -/
def countQueries (h : Log) : Nat :=
  (h.filter isQuery).length

/-- The two commands of one round of the Stop loop on the record `x`: the
power-button signal and the re-query of Refresh. -/
def stopRound (x : machine) : List Command :=
  [["controlvm", x.name, "acpipowerbutton"],
   ["showvminfo", if x.name = "" then x.uUID else x.name, "--machinereadable"]]

/-- A simulated tool that accepts every command and reports the machine `vm`
as running on its first `n - 1` detail queries and as powered off from the
`n`-th on. -/
def pollTool (n : Nat) : Tool := fun h =>
  if countQueries h < n then { stdout := "name=\"vm\"\nVMState=\"running\"\n" }
  else { stdout := "name=\"vm\"\nVMState=\"poweroff\"\n" }

/-! ## Peripheral operations -/

/-- Modelled from the spec: the type `PFRule` (declared outside machine.go), a
NAT port-forwarding rule descriptor.  machine.go uses nothing of a rule but
its rendering `Format()`, which is the one field kept here. -/
structure PFRule where
  Format : String
deriving DecidableEq, Repr

/-- Modelled from the spec: the type `NIC` (declared outside machine.go): the
network mode, the hardware model and the host-only adapter name. -/
structure NIC where
  Network : String
  Hardware : String
  HostonlyAdapter : String
deriving DecidableEq, Repr

/-- Modelled from the spec: the type `StorageController` (declared outside
machine.go): bus type, port count, chipset, host I/O cache and bootable
switches. -/
structure StorageController where
  SysBus : String
  Ports : Nat
  Chipset : String
  HostIOCache : Bool
  Bootable : Bool
deriving DecidableEq, Repr

/-- Modelled from the spec: the type `StorageMedium` (declared outside
machine.go): port, device slot, drive type and medium path. -/
structure StorageMedium where
  Port : Nat
  Device : Nat
  DriveType : String
  Medium : String
deriving DecidableEq, Repr

/-- AddNATPF adds a NAT port forarding rule to the n-th NIC with the given name. -/
def machine.AddNATPF (T : Tool) (m : machine) (n : Int) (name : String) (rule : PFRule)
    (log : Log) : Res :=
  ⟨(vbm T ["controlvm", m.name, "natpf" ++ toString n, name ++ "," ++ rule.Format] log).1, m,
    (vbm T ["controlvm", m.name, "natpf" ++ toString n, name ++ "," ++ rule.Format] log).2⟩

/-- DelNATPF deletes the NAT port forwarding rule with the given name from the
n-th NIC. -/
def machine.DelNATPF (T : Tool) (m : machine) (n : Int) (name : String) (log : Log) : Res :=
  ⟨(vbm T ["controlvm", m.name, "natpf" ++ toString n, "delete", name] log).1, m,
    (vbm T ["controlvm", m.name, "natpf" ++ toString n, "delete", name] log).2⟩

/-- The argument vector built by SetNIC. -/
def machine.SetNIC.args (m : machine) (n : Int) (nic : NIC) : Command :=
  let args := ["modifyvm", m.name,
    "--nic" ++ toString n, nic.Network,
    "--nictype" ++ toString n, nic.Hardware,
    "--cableconnected" ++ toString n, "on"]
  if nic.Network = "hostonly" then
    args ++ ["--hostonlyadapter" ++ toString n, nic.HostonlyAdapter]
  else args

/-- SetNIC set the n-th NIC. -/
def machine.SetNIC (T : Tool) (m : machine) (n : Int) (nic : NIC) (log : Log) : Res :=
  ⟨(vbm T (machine.SetNIC.args m n nic) log).1, m, (vbm T (machine.SetNIC.args m n nic) log).2⟩

/-- The argument vector built by AddStorageCtl. -/
def machine.AddStorageCtl.args (m : machine) (name : String) (ctl : StorageController) :
    Command :=
  let args := ["storagectl", m.name, "--name", name]
  let args := if ctl.SysBus ≠ "" then args ++ ["--add", ctl.SysBus] else args
  let args := if 0 < ctl.Ports then args ++ ["--portcount", toString ctl.Ports] else args
  let args := if ctl.Chipset ≠ "" then args ++ ["--controller", ctl.Chipset] else args
  let args := args ++ ["--hostiocache", bool2string ctl.HostIOCache]
  args ++ ["--bootable", bool2string ctl.Bootable]

/-- AddStorageCtl adds a storage controller with the given name. -/
def machine.AddStorageCtl (T : Tool) (m : machine) (name : String) (ctl : StorageController)
    (log : Log) : Res :=
  ⟨(vbm T (machine.AddStorageCtl.args m name ctl) log).1, m,
    (vbm T (machine.AddStorageCtl.args m name ctl) log).2⟩

/-- DelStorageCtl deletes the storage controller with the given name. -/
def machine.DelStorageCtl (T : Tool) (m : machine) (name : String) (log : Log) : Res :=
  ⟨(vbm T ["storagectl", m.name, "--name", name, "--remove"] log).1, m,
    (vbm T ["storagectl", m.name, "--name", name, "--remove"] log).2⟩

/-- The argument vector built by AttachStorage. -/
def machine.AttachStorage.args (m : machine) (ctlName : String) (medium : StorageMedium) :
    Command :=
  ["storageattach", m.name, "--storagectl", ctlName,
    "--port", toString medium.Port,
    "--device", toString medium.Device,
    "--type", medium.DriveType,
    "--medium", medium.Medium]

/-- AttachStorage attaches a storage medium to the named storage controller. -/
def machine.AttachStorage (T : Tool) (m : machine) (ctlName : String) (medium : StorageMedium)
    (log : Log) : Res :=
  ⟨(vbm T (machine.AttachStorage.args m ctlName medium) log).1, m,
    (vbm T (machine.AttachStorage.args m ctlName medium) log).2⟩

/-! ## Setters and getters -/

def machine.SetName (m : machine) (name : String) : machine := { m with name := name }

def machine.SetUUID (m : machine) (uuid : String) : machine := { m with uUID := uuid }

def machine.SetState (m : machine) (state : MachineState) : machine := { m with state := state }

def machine.SetCPUs (m : machine) (cpus : Nat) : machine := { m with cPUs := cpus }

def machine.SetMemory (m : machine) (memory : Nat) : machine := { m with memory := memory }

def machine.SetVRAM (m : machine) (vram : Nat) : machine := { m with vRAM := vram }

def machine.SetCfgFile (m : machine) (cfgFile : String) : machine := { m with cfgFile := cfgFile }

def machine.SetBaseFolder (m : machine) (baseFolder : String) : machine :=
  { m with baseFolder := baseFolder }

def machine.SetOSType (m : machine) (osType : String) : machine := { m with oSType := osType }

def machine.SetFlag (m : machine) (flag : VirtualBox.Flag) : machine := { m with flag := flag }

def machine.SetBootOrder (m : machine) (bootOrder : List String) : machine :=
  { m with bootOrder := bootOrder }

def machine.Name (m : machine) : String := m.name

def machine.UUID (m : machine) : String := m.uUID

def machine.State (m : machine) : MachineState := m.state

def machine.CPUs (m : machine) : Nat := m.cPUs

def machine.Memory (m : machine) : Nat := m.memory

def machine.VRAM (m : machine) : Nat := m.vRAM

def machine.CfgFile (m : machine) : String := m.cfgFile

def machine.BaseFolder (m : machine) : String := m.baseFolder

def machine.OSType (m : machine) : String := m.oSType

def machine.Flag (m : machine) : VirtualBox.Flag := m.flag

def machine.BootOrder (m : machine) : List String := m.bootOrder

/-! ## The spec side, continued: flags and the listing -/

/-- The option names of the 15 flags, in the order of the constant block. -/
def flagNames : List String :=
  ["acpi", "ioapic", "rtcuseutc", "cpuhotplug", "pae", "longmode", "synthcpu", "hpet",
   "hwvirtex", "triplefaultreset", "nestedpaging", "largepages", "vtxvpid", "vtxux",
   "accelerate3d"]

/-- The 15 named flags, in the order of the constant block. -/
def namedFlags : List Flag :=
  [F_acpi, F_ioapic, F_rtcuseutc, F_cpuhotplug, F_pae, F_longmode, F_synthcpu, F_hpet,
   F_hwvirtex, F_triplefaultreset, F_nestedpaging, F_largepages, F_vtxvpid, F_vtxux,
   F_accelerate3d]

/-- The flag options as the spec words them: for each named flag, in order,
`--<flagname>` followed by the rendering of its bit in `f`. -/
def flagOptions (f : Flag) : Command :=
  (flagNames.zip namedFlags).flatMap (fun p => ["--" ++ p.1, f.Get p.2])

/-- The options of the `modifyvm` command that come before the flags. -/
def modifyHead (m : machine) : Command :=
  ["modifyvm", m.name,
    "--firmware", "bios",
    "--bioslogofadein", "off",
    "--bioslogofadeout", "off",
    "--bioslogodisplaytime", "0",
    "--biosbootmenu", "disabled",
    "--ostype", m.oSType,
    "--cpus", toString m.cPUs,
    "--memory", toString m.memory,
    "--vram", toString m.vRAM]

/-- The bitwise OR of the single bits whose positions are listed in `S`. -/
def orBits (S : List (Fin 15)) : Flag :=
  S.foldl (fun acc i => Int.lor acc (2 ^ i.val)) 0

/-- The detail query for one identifier. -/
abbrev detailQuery (id : String) : Command :=
  ["showvminfo", id, "--machinereadable"]

/-- The identifiers a listing yields: capture group 1 of each line that the
listing pattern matches, in listing order; the other lines are skipped. -/
def listIds (P : Patterns) (lines : List String) : List String :=
  lines.filterMap (fun l => (P.reVMNameUUID l).map (fun res => res.1))

/-- The outcome of the detail query number `k` (from 0) of a listing run that
starts with history `log`: the query for `id`, run after the queries for the
first `k` identifiers. -/
def detailAt (P : Patterns) (T : Tool) (ids : List String) (log : Log) (k : Nat)
    (id : String) : Except Error machine :=
  (getMachine P T id (log ++ (ids.take k).map detailQuery)).1

/-- The identifiers of a listing run that starts with history `log`: those of
the lines of what the tool prints for `list vms`. -/
def listedIds (P : Patterns) (T : Tool) (log : Log) : List String :=
  listIds P (responseLines (T (log ++ [["list", "vms"]])).stdout)

/-! ## Theorems -/

/-! ### Basic facts on the commands issued -/

theorem getMachine_log (P : Patterns) (T : Tool) (id : String) (log : Log) :
    (getMachine P T id log).2 = log ++ [["showvminfo", id, "--machinereadable"]] := by
  unfold getMachine
  simp only [vbmOutErr]
  split
  · split <;> rfl
  · rfl

theorem getMachine_ok (P : Patterns) (T : Tool) (id : String) (log : Log)
    (h : (T (log ++ [["showvminfo", id, "--machinereadable"]])).err = none) :
    getMachine P T id log =
      (getMachine.parse P (T (log ++ [["showvminfo", id, "--machinereadable"]])).stdout,
        log ++ [["showvminfo", id, "--machinereadable"]]) := by
  simp [getMachine, vbmOutErr, h]

theorem Refresh_eq (P : Patterns) (T : Tool) (m : machine) (log : Log) :
    m.Refresh P T log =
      match (getMachine P T (if m.name = "" then m.uUID else m.name) log).1 with
      | .error e =>
        ⟨some e, m, log ++ [["showvminfo", if m.name = "" then m.uUID else m.name,
          "--machinereadable"]]⟩
      | .ok mm =>
        ⟨none, mm, log ++ [["showvminfo", if m.name = "" then m.uUID else m.name,
          "--machinereadable"]]⟩ := by
  unfold machine.Refresh
  simp only [getMachine_log]

theorem Refresh_log (P : Patterns) (T : Tool) (m : machine) (log : Log) :
    (m.Refresh P T log).log =
      log ++ [["showvminfo", if m.name = "" then m.uUID else m.name, "--machinereadable"]] := by
  rw [Refresh_eq]
  split <;> rfl

theorem listMachines_scan_log (P : Patterns) (T : Tool) (lines : List String) :
    ∀ (ms : List machine) (log : Log), ∃ ids : List String,
      (listMachines.scan P T lines ms log).2 =
        log ++ ids.map (fun id => ["showvminfo", id, "--machinereadable"]) := by
  induction lines with
  | nil =>
    intro ms log
    exact ⟨[], by simp [listMachines.scan]⟩
  | cons line rest ih =>
    intro ms log
    unfold listMachines.scan
    split
    · exact ih ms log
    · rename_i res _
      split
      · exact ⟨[res.1], by simp [getMachine_log]⟩
      · rename_i m _
        obtain ⟨ids, h⟩ := ih (ms ++ [m]) (getMachine P T res.1 log).2
        exact ⟨res.1 :: ids, by rw [h, getMachine_log]; simp⟩

theorem listMachines_log (P : Patterns) (T : Tool) (log : Log) :
    ∃ ids : List String,
      (listMachines P T log).2 =
        log ++ ["list", "vms"] :: ids.map (fun id => ["showvminfo", id, "--machinereadable"]) := by
  unfold listMachines
  simp only [vbmOut]
  split
  · exact ⟨[], by simp⟩
  · obtain ⟨ids, h⟩ := listMachines_scan_log P T
      (scanLines (T (log ++ [["list", "vms"]])).stdout).1 [] (log ++ [["list", "vms"]])
    refine ⟨ids, ?_⟩
    split
    · rw [h]; simp
    · split <;> (rw [h]; simp)

/-! ### Start and the no-op branches -/

/-- C1: Start issues at most one external command, chosen by the state of the
record alone.  From paused it issues exactly `controlvm <name> resume`, from
poweroff, saved and aborted exactly `startvm <name> --type headless`, and from
running it issues nothing and returns success; the error returned is the one
of the command issued, and the record is not touched. -/
theorem Start_command_by_state (T : Tool) (m : machine) (log : Log) :
    (m.state = Paused →
      m.Start T log = ⟨(T (log ++ [["controlvm", m.name, "resume"]])).err.map Error.tool, m,
        log ++ [["controlvm", m.name, "resume"]]⟩) ∧
    (m.state = Poweroff ∨ m.state = Saved ∨ m.state = Aborted →
      m.Start T log =
        ⟨(T (log ++ [["startvm", m.name, "--type", "headless"]])).err.map Error.tool, m,
          log ++ [["startvm", m.name, "--type", "headless"]]⟩) ∧
    (m.state = Running → m.Start T log = ⟨none, m, log⟩) ∧
    (∃ cmds : List Command, (m.Start T log).log = log ++ cmds ∧ cmds.length ≤ 1) := by
  refine ⟨?_, ?_, ?_, ?_⟩
  · intro h
    simp [machine.Start, vbm, h]
  · intro h
    have hp : m.state ≠ Paused := by
      rcases h with h | h | h <;> rw [h] <;> decide
    simp [machine.Start, vbm, hp, h]
  · intro h
    unfold machine.Start
    rw [h, if_neg (by decide), if_neg (by decide)]
  · unfold machine.Start
    split
    · exact ⟨[["controlvm", m.name, "resume"]], by simp [vbm], by simp⟩
    · split
      · exact ⟨[["startvm", m.name, "--type", "headless"]], by simp [vbm], by simp⟩
      · exact ⟨[], by simp, by simp⟩

/-- Start on concrete records: a paused machine is resumed, a saved one is
powered on, a running one is left alone. -/
theorem Start_command_by_state_witness :
    ({ name := "vm", state := Paused } : machine).Start (fun _ => {}) [] =
        ⟨none, { name := "vm", state := Paused }, [["controlvm", "vm", "resume"]]⟩ ∧
    ({ name := "vm", state := Saved } : machine).Start (fun _ => {}) [] =
        ⟨none, { name := "vm", state := Saved }, [["startvm", "vm", "--type", "headless"]]⟩ ∧
    ({ name := "vm", state := Running } : machine).Start (fun _ => {}) [] =
        ⟨none, { name := "vm", state := Running }, []⟩ :=
  ⟨(Start_command_by_state (fun _ => {}) { name := "vm", state := Paused } []).1 rfl,
   (Start_command_by_state (fun _ => {}) { name := "vm", state := Saved } []).2.1
      (Or.inr (Or.inl rfl)),
   (Start_command_by_state (fun _ => {}) { name := "vm", state := Running } []).2.2.1 rfl⟩

/-- C2: on a record whose state is poweroff, aborted or saved, each of Stop,
Pause, Poweroff and Save returns success, issues no external command and
leaves the record as it was; Stop does so whatever the fuel. -/
theorem off_states_are_noops (P : Patterns) (T : Tool) (fuel : Nat) (m : machine) (log : Log)
    (h : m.state = Poweroff ∨ m.state = Aborted ∨ m.state = Saved) :
    m.Stop P T fuel log = some ⟨none, m, log⟩ ∧
    m.Pause T log = ⟨none, m, log⟩ ∧
    m.Poweroff T log = ⟨none, m, log⟩ ∧
    m.Save T log = ⟨none, m, log⟩ := by
  have hp : m.state ≠ Paused := by
    rcases h with h | h | h <;> rw [h] <;> decide
  refine ⟨?_, ?_, ?_, ?_⟩
  · simp [machine.Stop, h]
  · rcases h with h | h | h <;> simp [machine.Pause, h]
  · simp [machine.Poweroff, h]
  · simp [machine.Save, hp, h]

/-- The four operations on an aborted machine, with a tool that would fail
every command: nothing is issued and nothing fails. -/
theorem off_states_are_noops_witness :
    (({ name := "vm", state := Aborted } : machine).Stop specPatterns
        (fun _ => { err := some "exit status 1" }) 0 [] =
      some ⟨none, { name := "vm", state := Aborted }, []⟩) ∧
    (({ name := "vm", state := Aborted } : machine).Pause
        (fun _ => { err := some "exit status 1" }) [] =
      ⟨none, { name := "vm", state := Aborted }, []⟩) ∧
    (({ name := "vm", state := Aborted } : machine).Poweroff
        (fun _ => { err := some "exit status 1" }) [] =
      ⟨none, { name := "vm", state := Aborted }, []⟩) ∧
    (({ name := "vm", state := Aborted } : machine).Save
        (fun _ => { err := some "exit status 1" }) [] =
      ⟨none, { name := "vm", state := Aborted }, []⟩) :=
  off_states_are_noops specPatterns (fun _ => { err := some "exit status 1" }) 0
    { name := "vm", state := Aborted } [] (Or.inr (Or.inl rfl))

/-! ### Failures of the query and of creation -/

/-- C5: when the query command fails, getMachine returns no record; it returns
`ErrMachineNotExist` when the error stream carries the "machine not found"
diagnostic, and otherwise the error of the tool itself, which is a different
error value. -/
theorem getMachine_query_failure (P : Patterns) (T : Tool) (id : String) (log : Log)
    (e : String)
    (hfail : (T (log ++ [["showvminfo", id, "--machinereadable"]])).err = some e) :
    (P.reMachineNotFound (T (log ++ [["showvminfo", id, "--machinereadable"]])).stderr ≠ "" →
      getMachine P T id log =
        (.error .ErrMachineNotExist, log ++ [["showvminfo", id, "--machinereadable"]])) ∧
    (P.reMachineNotFound (T (log ++ [["showvminfo", id, "--machinereadable"]])).stderr = "" →
      getMachine P T id log =
        (.error (.tool e), log ++ [["showvminfo", id, "--machinereadable"]]) ∧
      Error.tool e ≠ Error.ErrMachineNotExist) := by
  constructor
  · intro h
    simp [getMachine, vbmOutErr, hfail, h]
  · intro h
    simp [getMachine, vbmOutErr, hfail, h]

/-- A failing query with the diagnostic in the error stream, and one with
another text there. -/
theorem getMachine_query_failure_witness :
    getMachine specPatterns
        (fun _ => { stderr := "VBoxManage: error: Could not find a registered machine named \x27vm\x27",
                    err := some "exit status 1" }) "vm" [] =
      (.error .ErrMachineNotExist, [["showvminfo", "vm", "--machinereadable"]]) ∧
    getMachine specPatterns
        (fun _ => { stderr := "VBoxManage: error: out of memory", err := some "exit status 1" })
        "vm" [] =
      (.error (.tool "exit status 1"), [["showvminfo", "vm", "--machinereadable"]]) :=
  ⟨(getMachine_query_failure specPatterns
      (fun _ => { stderr := "VBoxManage: error: Could not find a registered machine named \x27vm\x27",
                  err := some "exit status 1" }) "vm" [] "exit status 1" rfl).1 (by decide),
   ((getMachine_query_failure specPatterns
      (fun _ => { stderr := "VBoxManage: error: out of memory", err := some "exit status 1" })
      "vm" [] "exit status 1" rfl).2 (by decide)).1⟩

/-- C6: for a non-empty name, when the listing succeeds and one of the
machines it yields has exactly that name, createMachine returns
`ErrMachineExist` and no record, and the commands it issued are those of the
listing alone (`list vms` and the detail queries): no `createvm` command is
issued. -/
theorem createMachine_existing_name (P : Patterns) (T : Tool) (name basefolder : String)
    (log : Log) (ms : List machine)
    (hname : name ≠ "")
    (hlist : (listMachines P T log).1 = .ok ms)
    (hex : ∃ m ∈ ms, m.name = name) :
    createMachine P T name basefolder log =
      (.error .ErrMachineExist, (listMachines P T log).2) ∧
    ∃ ids : List String,
      (createMachine P T name basefolder log).2 =
        log ++ ["list", "vms"] :: ids.map (fun id => ["showvminfo", id, "--machinereadable"]) := by
  have hany : ms.any (fun m => decide (m.name = name)) = true := by
    obtain ⟨m, hm, hn⟩ := hex
    exact List.any_eq_true.mpr ⟨m, hm, by simp [hn]⟩
  have hc : createMachine P T name basefolder log =
      (.error .ErrMachineExist, (listMachines P T log).2) := by
    unfold createMachine
    rw [if_neg hname, hlist]
    simp only [hany, if_true]
  refine ⟨hc, ?_⟩
  rw [hc]
  exact listMachines_log P T log

/-- Creating web01 where web01 is registered: the listing and one detail query
are issued, then the call fails with `ErrMachineExist`. -/
theorem createMachine_existing_name_witness :
    createMachine specPatterns web01Tool "web01" "/vms" [] =
      (.error .ErrMachineExist,
        [["list", "vms"], ["showvminfo", "web01", "--machinereadable"]]) :=
  (createMachine_existing_name specPatterns web01Tool "web01" "/vms" []
    [{ name := "web01", uUID := "1234", state := "running", memory := 2048, cPUs := 2,
       vRAM := 16, cfgFile := "/vms/web01/web01.vbox", baseFolder := "/vms/web01" }]
    (by decide) (by decide) ⟨_, List.mem_singleton.mpr rfl, rfl⟩).1

/-- C7: createMachine with an empty name returns an error and no record, and
issues no external command, whatever the base folder. -/
theorem createMachine_empty_name (P : Patterns) (T : Tool) (basefolder : String) (log : Log) :
    createMachine P T "" basefolder log = (.error (.errorf "machine name is empty"), log) := by
  simp [createMachine]

/-! ### The boot slots of Modify -/

theorem bootLoop_eq_bootSlots (b : List String) (args : Command) :
    machine.Modify.bootLoop 0 b args = args ++ bootSlots b := by
  rcases b with _ | ⟨a, _ | ⟨b, _ | ⟨c, _ | ⟨d, _ | ⟨e, rest⟩⟩⟩⟩⟩
  · simp [machine.Modify.bootLoop, bootSlots]
  · simp only [machine.Modify.bootLoop, bootSlots]
    simp
    decide
  · simp only [machine.Modify.bootLoop, bootSlots]
    simp
    decide
  · simp only [machine.Modify.bootLoop, bootSlots]
    simp
    decide
  · simp only [machine.Modify.bootLoop, bootSlots]
    simp
    decide
  · simp only [machine.Modify.bootLoop, bootSlots]
    simp
    decide

theorem bootSlots_take (b : List String) : bootSlots (b.take 4) = bootSlots b := by
  rcases b with _ | ⟨a, _ | ⟨b, _ | ⟨c, _ | ⟨d, rest⟩⟩⟩⟩ <;> simp [bootSlots]

theorem bootSlots_length (b : List String) : (bootSlots b).length = 2 * min b.length 4 := by
  rcases b with _ | ⟨a, _ | ⟨b, _ | ⟨c, _ | ⟨d, rest⟩⟩⟩⟩ <;> simp [bootSlots]

/-- C8: the command built by Modify is the fixed options followed by the boot
slots `--boot1 b[0]`, `--boot2 b[1]`, ... of the first min(len b, 4) entries
of the stored boot order, in order.  Entries from index 4 on do not reach the
command and change neither the commands issued nor the error returned: Modify
behaves on the record as on the same record with the boot order cut to four
entries. -/
theorem Modify_boot_slots (P : Patterns) (T : Tool) (m : machine) (log : Log) :
    machine.Modify.args m = machine.Modify.fixedArgs m ++ bootSlots m.bootOrder ∧
    (bootSlots m.bootOrder).length = 2 * min m.bootOrder.length 4 ∧
    bootSlots m.bootOrder = bootSlots (m.bootOrder.take 4) ∧
    (∃ rest : List Command,
      (m.Modify P T log).log =
        log ++ [machine.Modify.fixedArgs m ++ bootSlots m.bootOrder] ++ rest) ∧
    (({ m with bootOrder := m.bootOrder.take 4 } : machine).Modify P T log).err =
      (m.Modify P T log).err ∧
    (({ m with bootOrder := m.bootOrder.take 4 } : machine).Modify P T log).log =
      (m.Modify P T log).log := by
  have hargs : ∀ x : machine,
      machine.Modify.args x = machine.Modify.fixedArgs x ++ bootSlots x.bootOrder := by
    intro x
    simp [machine.Modify.args, bootLoop_eq_bootSlots]
  have hcut : machine.Modify.args ({ m with bootOrder := m.bootOrder.take 4 } : machine) =
      machine.Modify.args m := by
    rw [hargs, hargs]
    simp [bootSlots_take, machine.Modify.fixedArgs]
  refine ⟨hargs m, bootSlots_length _, (bootSlots_take _).symm, ?_, ?_, ?_⟩
  · unfold machine.Modify
    rw [hargs]
    cases h : (T (log ++ [machine.Modify.fixedArgs m ++ bootSlots m.bootOrder])).err with
    | some e => exact ⟨[], by simp [vbm, h]⟩
    | none =>
      simp only [vbm, h, Option.map_none']
      exact ⟨_, Refresh_log P T m _⟩
  · unfold machine.Modify
    rw [hcut]
    cases h : (T (log ++ [machine.Modify.args m])).err with
    | some e => simp [vbm, h]
    | none =>
      simp only [vbm, h, Option.map_none', Refresh_eq]
      split <;> rfl
  · unfold machine.Modify
    rw [hcut]
    cases h : (T (log ++ [machine.Modify.args m])).err with
    | some e => simp [vbm, h]
    | none =>
      simp only [vbm, h, Option.map_none', Refresh_eq]
      split <;> rfl

/-! ### The parser against the spec -/

theorem digitVal_digit (c : Char) (h : 48 ≤ c.toNat ∧ c.toNat ≤ 57) :
    digitVal c = some (c.toNat - 48) := by
  simp [digitVal, h]

theorem digitVal_nondigit (c : Char) (h : ¬ (48 ≤ c.toNat ∧ c.toNat ≤ 57)) :
    digitVal c = none ∨ ∃ d, digitVal c = some d ∧ 10 ≤ d := by
  unfold digitVal
  rw [if_neg h]
  split
  · exact Or.inr ⟨_, rfl, by omega⟩
  · split
    · exact Or.inr ⟨_, rfl, by omega⟩
    · exact Or.inl rfl

theorem foldl_decimal_ge (cs : List Char) (n : Nat) :
    n ≤ cs.foldl (fun n c => n * 10 + (c.toNat - 48)) n := by
  induction cs generalizing n with
  | nil => simp
  | cons c cs ih =>
    simp only [List.foldl_cons]
    exact le_trans (by omega) (ih _)

theorem ParseUint_loop_spec (s0 : String) (cs : List Char) :
    ∀ n : Nat, n < 2 ^ 32 →
      ((cs.all (fun c => decide (48 ≤ c.toNat ∧ c.toNat ≤ 57)) = true ∧
          cs.foldl (fun n c => n * 10 + (c.toNat - 48)) n < 2 ^ 32) →
        ParseUint.loop s0 10 (2 ^ 32 - 1) ((2 ^ 64 - 1) / 10 + 1) cs n =
          .ok (cs.foldl (fun n c => n * 10 + (c.toNat - 48)) n)) ∧
      (¬ (cs.all (fun c => decide (48 ≤ c.toNat ∧ c.toNat ≤ 57)) = true ∧
          cs.foldl (fun n c => n * 10 + (c.toNat - 48)) n < 2 ^ 32) →
        ∃ r, ParseUint.loop s0 10 (2 ^ 32 - 1) ((2 ^ 64 - 1) / 10 + 1) cs n =
          .error (.numError s0 r)) := by
  induction cs with
  | nil =>
    intro n hn
    simpa [ParseUint.loop] using hn
  | cons c cs ih =>
    intro n hn
    by_cases hc : 48 ≤ c.toNat ∧ c.toNat ≤ 57
    · have hd := digitVal_digit c hc
      have h10 : (n * 10) % 2 ^ 64 = n * 10 := Nat.mod_eq_of_lt (by omega)
      have h1 : (n * 10 + (c.toNat - 48)) % 2 ^ 64 = n * 10 + (c.toNat - 48) :=
        Nat.mod_eq_of_lt (by omega)
      have hcut : ¬ ((2 ^ 64 - 1) / 10 + 1 ≤ n) := by omega
      have hb : ¬ (10 ≤ c.toNat - 48) := by omega
      unfold ParseUint.loop
      simp only [hd, hb, hcut, if_false, h10, h1, List.all_cons, List.foldl_cons]
      by_cases hr : n * 10 + (c.toNat - 48) < 2 ^ 32
      · have hno : ¬ (n * 10 + (c.toNat - 48) < n * 10 ∨
            2 ^ 32 - 1 < n * 10 + (c.toNat - 48)) := by omega
        rw [if_neg hno]
        have := ih _ hr
        simpa [hc] using this
      · have hyes : (n * 10 + (c.toNat - 48) < n * 10 ∨
            2 ^ 32 - 1 < n * 10 + (c.toNat - 48)) := by omega
        rw [if_pos hyes]
        have hge := foldl_decimal_ge cs (n * 10 + (c.toNat - 48))
        constructor
        · intro h
          omega
        · intro _
          exact ⟨_, rfl⟩
    · constructor
      · intro h
        simp [hc] at h
      · intro _
        unfold ParseUint.loop
        rcases digitVal_nondigit c hc with h | ⟨d, h, hd⟩
        · rw [h]; exact ⟨_, rfl⟩
        · rw [h]; simp only [hd, if_true]; exact ⟨_, rfl⟩

theorem ParseUint_decimal (s : String) (h : isDecimal32 s = true) :
    ParseUint s 10 32 = .ok (decimalValue s) := by
  simp only [isDecimal32, Bool.and_eq_true, decide_eq_true_eq] at h
  unfold ParseUint
  rw [if_neg h.1.1]
  exact (ParseUint_loop_spec s s.toList 0 (by norm_num)).1 ⟨h.1.2, h.2⟩

theorem lastValue_getD (P : Patterns) (key line : String) (rest : List String) (d : String) :
    (lastValue P key (line :: rest)).getD d =
      (lastValue P key rest).getD ((lineValue P key line).getD d) := by
  simp only [lastValue]
  cases lastValue P key rest <;> rfl

theorem lastValue_map_getD {α : Type} (P : Patterns) (key line : String) (rest : List String)
    (f : String → α) (d : α) :
    ((lastValue P key (line :: rest)).map f).getD d =
      ((lastValue P key rest).map f).getD (((lineValue P key line).map f).getD d) := by
  simp only [lastValue]
  cases lastValue P key rest <;> rfl

theorem specRecord_cons (P : Patterns) (line : String) (rest : List String) (m0 : machine) :
    specRecord P (line :: rest) m0 = specRecord P rest (specRecord P [line] m0) := by
  have hnil : ∀ key, lastValue P key [] = none := fun _ => rfl
  simp only [specRecord, lastValue_getD, lastValue_map_getD, hnil, Option.getD_none,
    Option.map_none']

theorem specRecord_nil (P : Patterns) (m0 : machine) : specRecord P [] m0 = m0 := by
  simp [specRecord, lastValue]

theorem specRecord_nomatch (P : Patterns) (line : String) (m0 : machine)
    (h : P.reVMInfoLine line = none) : specRecord P [line] m0 = m0 := by
  simp [specRecord, lastValue, lineValue, h]

theorem assign_spec (P : Patterns) (line : String) (m0 : machine)
    (res : String × String × String × String) (h : P.reVMInfoLine line = some res)
    (hok : numericOK P line = true) :
    getMachine.assign (infoKey res) (infoVal res) m0 = .ok (specRecord P [line] m0) := by
  simp only [numericOK, h] at hok
  unfold getMachine.assign
  by_cases h1 : infoKey res = "name"
  · simp [specRecord, lastValue, lineValue, h, h1]
  by_cases h2 : infoKey res = "UUID"
  · simp [specRecord, lastValue, lineValue, h, h2]
  by_cases h3 : infoKey res = "VMState"
  · simp [specRecord, lastValue, lineValue, h, h3]
  by_cases h4 : infoKey res = "memory"
  · simp only [h4, true_or, if_true] at hok
    simp [specRecord, lastValue, lineValue, h, h4, ParseUint_decimal _ hok]
  by_cases h5 : infoKey res = "cpus"
  · simp only [h5, true_or, or_true, if_true] at hok
    simp [specRecord, lastValue, lineValue, h, h5, ParseUint_decimal _ hok]
  by_cases h6 : infoKey res = "vram"
  · simp only [h6, or_true, if_true] at hok
    simp [specRecord, lastValue, lineValue, h, h6, ParseUint_decimal _ hok]
  by_cases h7 : infoKey res = "CfgFile"
  · simp [specRecord, lastValue, lineValue, h, h7]
  · simp [specRecord, lastValue, lineValue, h, h1, h2, h3, h4, h5, h6, h7]

theorem scan_spec (P : Patterns) (lines : List String) :
    ∀ m0 : machine, lines.all (numericOK P) = true →
      getMachine.scan P lines m0 = .ok (specRecord P lines m0) := by
  induction lines with
  | nil =>
    intro m0 _
    simp [getMachine.scan, specRecord_nil]
  | cons line rest ih =>
    intro m0 hall
    simp only [List.all_cons, Bool.and_eq_true] at hall
    rw [specRecord_cons]
    unfold getMachine.scan
    cases h : P.reVMInfoLine line with
    | none =>
      simp only [specRecord_nomatch P line m0 h]
      exact ih m0 hall.2
    | some res =>
      simp only [assign_spec P line m0 res h hall.1]
      exact ih _ hall.2

theorem assign_other (key val : String) (m0 : machine)
    (h : key ∉ ["name", "UUID", "VMState", "memory", "cpus", "vram", "CfgFile"]) :
    getMachine.assign key val m0 = .ok m0 := by
  simp only [List.mem_cons, List.mem_singleton, not_or, List.mem_nil_iff, or_false] at h
  simp [getMachine.assign, h]

theorem scan_filter (P : Patterns) (lines : List String) :
    ∀ m0 : machine,
      getMachine.scan P (lines.filter (isInfoLine P)) m0 = getMachine.scan P lines m0 := by
  induction lines with
  | nil => intro m0; rfl
  | cons line rest ih =>
    intro m0
    cases h : P.reVMInfoLine line with
    | none =>
      have hf : isInfoLine P line = false := by simp [isInfoLine, h]
      rw [List.filter_cons_of_neg (by simp [hf]), ih]
      conv_rhs => unfold getMachine.scan
      simp only [h]
    | some res =>
      by_cases hk : infoKey res ∈ ["name", "UUID", "VMState", "memory", "cpus", "vram", "CfgFile"]
      · have hf : isInfoLine P line = true := by simp only [isInfoLine, h, hk, decide_True]
        rw [List.filter_cons_of_pos hf]
        unfold getMachine.scan
        simp only [h]
        split
        · rfl
        · exact ih _
      · have hf : isInfoLine P line = false := by simp only [isInfoLine, h, hk, decide_False]
        rw [List.filter_cons_of_neg (by simp [hf]), ih]
        conv_rhs => unfold getMachine.scan
        simp only [h, assign_other _ _ _ hk]

theorem scanTokens_short (ls : List (List Char))
    (h : ∀ l ∈ ls, (String.mk l).utf8ByteSize < MaxScanTokenSize) :
    scanTokens ls = (ls.map (fun l => String.mk (dropCR l)), none) := by
  induction ls with
  | nil => rfl
  | cons l ls ih =>
    have hl : ¬ (MaxScanTokenSize ≤ (String.mk l).utf8ByteSize) :=
      Nat.not_le.mpr (h l (List.mem_cons_self _ _))
    have ih1 := ih (fun x hx => h x (List.mem_cons_of_mem _ hx))
    unfold scanTokens
    rw [if_neg hl, ih1]
    rfl

theorem parse_of_scan_ok (P : Patterns) (s : String) (h : (scanLines s).2 = none) :
    getMachine.parse P s = getMachine.scan P (scanLines s).1 {} := by
  unfold getMachine.parse
  rw [h]
  cases getMachine.scan P (scanLines s).1 {} <;> rfl

theorem rawLines_replicate (n : Nat) :
    rawLines (List.replicate (n + 1) 'x') = [List.replicate (n + 1) 'x'] := by
  induction n with
  | zero => rfl
  | succ n ih =>
    rw [List.replicate_succ]
    unfold rawLines
    rw [if_neg (by decide), ih]

theorem utf8ByteSize_replicate (n : Nat) :
    (String.mk (List.replicate n 'x')).utf8ByteSize = n := by
  induction n with
  | zero => rfl
  | succ n ih =>
    simp only [String.utf8ByteSize, List.replicate_succ, String.utf8ByteSize.go] at ih ⊢
    rw [ih]
    rfl

theorem splitAtLast_replicate (n : Nat) : splitAtLast '=' (List.replicate n 'x') = none := by
  induction n with
  | zero => rfl
  | succ n ih =>
    rw [List.replicate_succ]
    unfold splitAtLast
    rw [ih]
    simp

theorem scanLines_long_line (n : Nat) (h : MaxScanTokenSize ≤ n) :
    scanLines (String.mk (List.replicate n 'x')) = ([], some Error.ErrTooLong) := by
  obtain ⟨k, rfl⟩ : ∃ k, n = k + 1 := ⟨n - 1, by unfold MaxScanTokenSize at h; omega⟩
  unfold scanLines
  show scanTokens (rawLines (List.replicate (k + 1) 'x')) = _
  rw [rawLines_replicate]
  unfold scanTokens
  rw [if_pos]
  rw [utf8ByteSize_replicate]
  exact h

theorem parse_long_line (P : Patterns) (n : Nat) (h : MaxScanTokenSize ≤ n) :
    getMachine.parse P (String.mk (List.replicate n 'x')) = .error .ErrTooLong := by
  unfold getMachine.parse
  rw [scanLines_long_line n h]
  rfl

theorem specInfoLine_replicate (n : Nat) :
    specInfoLine (String.mk (List.replicate n 'x')) = none := by
  cases n with
  | zero => rfl
  | succ n =>
    have h := splitAtLast_replicate (n + 1)
    rw [List.replicate_succ] at h
    show specInfoPlain (List.replicate (n + 1) 'x') = none
    rw [List.replicate_succ]
    unfold specInfoPlain
    rw [h]

/-- C4, as amended: for every successful query response in which every line is
shorter than the scanner limit of 65536 bytes and every value of a line with
key memory, cpus or vram is a decimal numeral in 0..2^32-1, getMachine returns
a record whose name, UUID, state and config path are the values of the last
lines with keys name, UUID, VMState and CfgFile, whose memory, CPU count and
VRAM are the decimal values of the last lines with keys memory, cpus and vram,
and whose base folder is the parent directory of the config path; a field
without a line stays at its zero value.  For responses without an over-long
line, lines that do not match and lines with any other key have no effect on
the result.  The response of the spec's example yields the record web01. -/
theorem getMachine_parses_response (P : Patterns) (T : Tool) (id : String) (log : Log)
    (hquery : (T (log ++ [["showvminfo", id, "--machinereadable"]])).err = none)
    (hshort : ∀ l ∈ rawLines (T (log ++ [["showvminfo", id, "--machinereadable"]])).stdout.toList,
      (String.mk l).utf8ByteSize < MaxScanTokenSize)
    (hnum : (scanLines (T (log ++ [["showvminfo", id, "--machinereadable"]])).stdout).1.all
      (numericOK P) = true) :
    getMachine P T id log =
      (.ok (specRecord P
          (scanLines (T (log ++ [["showvminfo", id, "--machinereadable"]])).stdout).1 {}),
        log ++ [["showvminfo", id, "--machinereadable"]]) ∧
    (∀ s1 s2 : String, (scanLines s1).2 = none → (scanLines s2).2 = none →
      (scanLines s1).1.filter (isInfoLine P) = (scanLines s2).1.filter (isInfoLine P) →
      getMachine.parse P s1 = getMachine.parse P s2) ∧
    getMachine specPatterns (fun _ => { stdout := web01Response }) "web01" [] =
      (.ok { name := "web01", uUID := "1234", state := Running, memory := 2048, cPUs := 2,
             vRAM := 16, cfgFile := "/vms/web01/web01.vbox", baseFolder := "/vms/web01" },
        [["showvminfo", "web01", "--machinereadable"]]) := by
  refine ⟨?_, ?_, by decide⟩
  · have hs : (scanLines (T (log ++ [["showvminfo", id, "--machinereadable"]])).stdout).2 =
        none := by
      unfold scanLines
      rw [scanTokens_short _ hshort]
    rw [getMachine_ok P T id log hquery, parse_of_scan_ok P _ hs, scan_spec P _ _ hnum]
  · intro s1 s2 h1 h2 hf
    rw [parse_of_scan_ok P s1 h1, parse_of_scan_ok P s2 h2, ← scan_filter P (scanLines s1).1,
      ← scan_filter P (scanLines s2).1, hf]

/-- The response of the spec's example meets the conditions, and the record
read from it is built from the last values of its seven keys. -/
theorem getMachine_parses_response_witness :
    getMachine specPatterns (fun _ => { stdout := web01Response }) "web01" [] =
      (.ok (specRecord specPatterns (scanLines web01Response).1 {}),
        [["showvminfo", "web01", "--machinereadable"]]) ∧
    specRecord specPatterns (scanLines web01Response).1 {} =
      { name := "web01", uUID := "1234", state := Running, memory := 2048, cPUs := 2,
        vRAM := 16, cfgFile := "/vms/web01/web01.vbox", baseFolder := "/vms/web01" } :=
  ⟨(getMachine_parses_response specPatterns (fun _ => { stdout := web01Response }) "web01" []
      rfl (by decide) (by decide)).1, by decide⟩

/-- A successful query response for which getMachine returns no record: one
line of 65536 letters, as many as the scanner limit, which does not match `key=value` and without which the
response parses to the empty record; and a response whose memory value is not
a numeral. -/
theorem getMachine_response_counterexample :
    getMachine specPatterns (fun _ => { stdout := String.mk (List.replicate MaxScanTokenSize 'x') })
        "vm" [] =
      (.error .ErrTooLong, [["showvminfo", "vm", "--machinereadable"]]) ∧
    specInfoLine (String.mk (List.replicate MaxScanTokenSize 'x')) = none ∧
    getMachine specPatterns (fun _ => { stdout := "" }) "vm" [] =
      (.ok {}, [["showvminfo", "vm", "--machinereadable"]]) ∧
    getMachine specPatterns (fun _ => { stdout := "memory=\"abc\"" }) "vm" [] =
      (.error (.numError "abc" false), [["showvminfo", "vm", "--machinereadable"]]) := by
  refine ⟨?_, specInfoLine_replicate MaxScanTokenSize, by decide, by decide⟩
  rw [getMachine_ok _ _ _ _ rfl]
  exact congrArg (fun r => (r, [["showvminfo", "vm", "--machinereadable"]]))
    (parse_long_line specPatterns MaxScanTokenSize (le_refl _))

/-! ### Malformed numerals -/

theorem Stop_loop_zero (P : Patterns) (T : Tool) (m : machine) (log : Log)
    (hm : m.state ≠ Poweroff) : machine.Stop.loop P T 0 m log = none := by
  unfold machine.Stop.loop
  rw [if_neg hm]

theorem Stop_loop_done (P : Patterns) (T : Tool) (fuel : Nat) (m : machine) (log : Log)
    (hm : m.state = Poweroff) : machine.Stop.loop P T fuel m log = some ⟨none, m, log⟩ := by
  cases fuel <;> (unfold machine.Stop.loop; rw [if_pos hm])

theorem Stop_loop_step (P : Patterns) (T : Tool) (fuel : Nat) (m r : machine) (log : Log)
    (hm : m.state ≠ Poweroff)
    (h1 : (T (log ++ [["controlvm", m.name, "acpipowerbutton"]])).err = none)
    (h2 : (T (log ++ stopRound m)).err = none)
    (h3 : getMachine.parse P (T (log ++ stopRound m)).stdout = .ok r) :
    machine.Stop.loop P T (fuel + 1) m log = machine.Stop.loop P T fuel r (log ++ stopRound m) := by
  have hl : log ++ [["controlvm", m.name, "acpipowerbutton"]] ++
      [["showvminfo", if m.name = "" then m.uUID else m.name, "--machinereadable"]] =
      log ++ stopRound m := by
    simp [stopRound]
  have hg := getMachine_ok P T (if m.name = "" then m.uUID else m.name)
    (log ++ [["controlvm", m.name, "acpipowerbutton"]]) (by rw [hl]; exact h2)
  rw [hl, h3] at hg
  have hr : m.Refresh P T (log ++ [["controlvm", m.name, "acpipowerbutton"]]) =
      ⟨none, r, log ++ stopRound m⟩ := by
    rw [Refresh_eq, hg, hl]
  conv_lhs => unfold machine.Stop.loop
  rw [if_neg hm]
  simp only [vbm, h1, Option.map_none', hr]

theorem countQueries_append (a b : Log) :
    countQueries (a ++ b) = countQueries a + countQueries b := by
  simp [countQueries]

theorem countQueries_stopRound (x : machine) : countQueries (stopRound x) = 1 := by
  simp [countQueries, stopRound, isQuery, List.filter]

theorem countQueries_button (name : String) :
    countQueries [["controlvm", name, "acpipowerbutton"]] = 0 := by
  simp [countQueries, isQuery, List.filter]

theorem Stop_loop_rounds (P : Patterns) (T : Tool) (hacc : ∀ h : Log, (T h).err = none) :
    ∀ (k : Nat) (m : machine) (log : Log), m.state ≠ Poweroff →
      (∀ (h : Log) (id : String), countQueries h < k + 1 →
        ∃ r, getMachine.parse P
            (T (log ++ h ++ [["showvminfo", id, "--machinereadable"]])).stdout = .ok r ∧
          (r.state = Poweroff ↔ countQueries h + 1 = k + 1)) →
      ∃ (r : machine) (recs : List machine),
        recs.length = k + 1 ∧ recs.head? = some m ∧ r.state = Poweroff ∧
        (∀ (j : Nat) (x : machine), (recs ++ [r])[j + 1]? = some x →
          getMachine.parse P
            (T (log ++ ((recs.take (j + 1)).map stopRound).flatten)).stdout = .ok x) ∧
        (∀ fuel, k + 1 ≤ fuel →
          machine.Stop.loop P T fuel m log =
            some ⟨none, r, log ++ (recs.map stopRound).flatten⟩) ∧
        (∀ fuel, fuel < k + 1 → machine.Stop.loop P T fuel m log = none) := by
  intro k
  induction k with
  | zero =>
    intro m log hm hpoll
    obtain ⟨r, hr, hst⟩ := hpoll [["controlvm", m.name, "acpipowerbutton"]]
      (if m.name = "" then m.uUID else m.name) (by rw [countQueries_button]; omega)
    have hr1 : getMachine.parse P (T (log ++ stopRound m)).stdout = .ok r := by
      simpa [stopRound] using hr
    have hoff : r.state = Poweroff := hst.mpr (by rw [countQueries_button])
    refine ⟨r, [m], rfl, rfl, hoff, ?_, ?_, ?_⟩
    · intro j x hx
      cases j with
      | zero =>
        simp only [List.singleton_append, Nat.zero_add, List.getElem?_cons_succ,
          List.getElem?_cons_zero, Option.some.injEq] at hx
        subst hx
        simpa using hr1
      | succ j => simp at hx
    · intro fuel hf
      obtain ⟨f, rfl⟩ : ∃ f, fuel = f + 1 := ⟨fuel - 1, by omega⟩
      rw [Stop_loop_step P T f m r log hm (hacc _) (hacc _) hr1, Stop_loop_done P T f r _ hoff]
      simp
    · intro fuel hf
      have : fuel = 0 := by omega
      subst this
      exact Stop_loop_zero P T m log hm
  | succ k ih =>
    intro m log hm hpoll
    obtain ⟨r1, hr, hst⟩ := hpoll [["controlvm", m.name, "acpipowerbutton"]]
      (if m.name = "" then m.uUID else m.name) (by rw [countQueries_button]; omega)
    have hr1 : getMachine.parse P (T (log ++ stopRound m)).stdout = .ok r1 := by
      simpa [stopRound] using hr
    have hon : r1.state ≠ Poweroff := by
      intro h
      have := hst.mp h
      rw [countQueries_button] at this
      omega
    have hpoll1 : ∀ (h : Log) (id : String), countQueries h < k + 1 →
        ∃ r, getMachine.parse P
            (T (log ++ stopRound m ++ h ++ [["showvminfo", id, "--machinereadable"]])).stdout =
              .ok r ∧
          (r.state = Poweroff ↔ countQueries h + 1 = k + 1) := by
      intro h id hc
      have hcount : countQueries (stopRound m ++ h) = countQueries h + 1 := by
        rw [countQueries_append, countQueries_stopRound]; omega
      obtain ⟨r, hp, hs⟩ := hpoll (stopRound m ++ h) id (by omega)
      refine ⟨r, by simpa [List.append_assoc] using hp, ?_⟩
      rw [hs, hcount]
      omega
    obtain ⟨r, recs, hlen, hhead, hoff, hchain, hge, hlt⟩ :=
      ih r1 (log ++ stopRound m) hon hpoll1
    refine ⟨r, m :: recs, by simp [hlen], rfl, hoff, ?_, ?_, ?_⟩
    · intro j x hx
      cases j with
      | zero =>
        obtain ⟨rest, rfl⟩ : ∃ rest, recs = r1 :: rest := by
          cases recs with
          | nil => simp at hlen
          | cons a rest =>
            simp only [List.head?_cons, Option.some.injEq] at hhead
            exact ⟨rest, by rw [hhead]⟩
        simp only [List.cons_append, Nat.zero_add, List.getElem?_cons_succ,
          List.getElem?_cons_zero, Option.some.injEq] at hx
        subst hx
        simpa using hr1
      | succ j =>
        have hx1 : (recs ++ [r])[j + 1]? = some x := by
          simpa using hx
        have := hchain j x hx1
        simpa [List.append_assoc] using this
    · intro fuel hf
      obtain ⟨f, rfl⟩ : ∃ f, fuel = f + 1 := ⟨fuel - 1, by omega⟩
      rw [Stop_loop_step P T f m r1 log hm (hacc _) (hacc _) hr1, hge f (by omega)]
      simp [List.append_assoc]
    · intro fuel hf
      cases fuel with
      | zero => exact Stop_loop_zero P T m log hm
      | succ f =>
        rw [Stop_loop_step P T f m r1 log hm (hacc _) (hacc _) hr1]
        exact hlt f (by omega)

/-- C3: for every N >= 1 and every record in state running, if the tool
accepts every command and its detail queries report a state other than
poweroff for the first N-1 queries and poweroff on the N-th, then Stop returns
success after exactly N iterations: it needs N rounds of the loop (with less
fuel it has not returned, with N or more it has), the commands it issues are N
rounds of the power-button command `controlvm <name> acpipowerbutton` followed
by one re-query, each addressed by the record as it stands at that round, and
the state of the record is poweroff afterwards.  The records of the rounds are
pinned down: the first is the record Stop was called on, and the record of
each later round, like the record left at the end, is the one parsed from the
answer to the re-query of the round before. -/
theorem Stop_running_exact_rounds (P : Patterns) (T : Tool) (N : Nat) (m : machine) (log : Log)
    (hN : 1 ≤ N) (hm : m.state = Running)
    (hacc : ∀ h : Log, (T h).err = none)
    (hpoll : ∀ (h : Log) (id : String), countQueries h < N →
      ∃ r, getMachine.parse P
          (T (log ++ h ++ [["showvminfo", id, "--machinereadable"]])).stdout = .ok r ∧
        (r.state = Poweroff ↔ countQueries h + 1 = N)) :
    ∃ (r : machine) (recs : List machine),
      recs.length = N ∧ recs.head? = some m ∧ r.state = Poweroff ∧
      (∀ (j : Nat) (x : machine), (recs ++ [r])[j + 1]? = some x →
        getMachine.parse P
          (T (log ++ ((recs.take (j + 1)).map stopRound).flatten)).stdout = .ok x) ∧
      (∀ fuel, N ≤ fuel →
        m.Stop P T fuel log = some ⟨none, r, log ++ (recs.map stopRound).flatten⟩) ∧
      (∀ fuel, fuel < N → m.Stop P T fuel log = none) := by
  obtain ⟨k, rfl⟩ : ∃ k, N = k + 1 := ⟨N - 1, by omega⟩
  have hoff : m.state ≠ Poweroff := by rw [hm]; decide
  have hstop : ∀ fuel, m.Stop P T fuel log = machine.Stop.loop P T fuel m log := by
    intro fuel
    unfold machine.Stop
    rw [hm, if_neg (by decide), if_neg (by decide)]
  obtain ⟨r, recs, h1, h2, h3, hc, h4, h5⟩ := Stop_loop_rounds P T hacc k m log hoff hpoll
  exact ⟨r, recs, h1, h2, h3, hc, fun fuel hf => by rw [hstop, h4 fuel hf],
    fun fuel hf => by rw [hstop, h5 fuel hf]⟩

theorem pollTool_reports (n : Nat) (h : Log) (id : String) (hc : countQueries h < n) :
    ∃ r, getMachine.parse specPatterns
        (pollTool n ([] ++ h ++ [["showvminfo", id, "--machinereadable"]])).stdout = .ok r ∧
      (r.state = Poweroff ↔ countQueries h + 1 = n) := by
  have hq : countQueries ([] ++ h ++ [["showvminfo", id, "--machinereadable"]]) =
      countQueries h + 1 := by
    simp [countQueries_append, countQueries, isQuery, List.filter]
  unfold pollTool
  rw [hq]
  by_cases hlt : countQueries h + 1 < n
  · rw [if_pos hlt]
    refine ⟨{ name := "vm", state := Running }, by decide, ?_⟩
    constructor
    · intro hx; exact absurd hx (by decide)
    · intro hx; omega
  · rw [if_neg hlt]
    refine ⟨{ name := "vm", state := Poweroff }, by decide, ?_⟩
    constructor
    · intro _; omega
    · intro _; rfl

/-- Stop on the running machine `vm`, with the simulated tool that reports
poweroff on the third query: with fuel for three rounds or more it returns
success with the state poweroff after exactly three power-button commands, each
followed by its re-query, all addressed to `vm`; with fuel for fewer rounds it
has not returned. -/
theorem Stop_running_exact_rounds_witness :
    (∀ fuel, 3 ≤ fuel →
      ({ name := "vm", state := Running } : machine).Stop specPatterns (pollTool 3) fuel [] =
        some ⟨none, { name := "vm", state := Poweroff },
          [["controlvm", "vm", "acpipowerbutton"], ["showvminfo", "vm", "--machinereadable"],
           ["controlvm", "vm", "acpipowerbutton"], ["showvminfo", "vm", "--machinereadable"],
           ["controlvm", "vm", "acpipowerbutton"], ["showvminfo", "vm", "--machinereadable"]]⟩) ∧
    (∀ fuel, fuel < 3 →
      ({ name := "vm", state := Running } : machine).Stop specPatterns (pollTool 3) fuel [] =
        none) := by
  obtain ⟨r, recs, hlen, hhead, _, hchain, hge, hlt⟩ :=
    Stop_running_exact_rounds specPatterns (pollTool 3) 3 { name := "vm", state := Running } []
      (by decide) rfl (fun _ => by unfold pollTool; split <;> rfl)
      (fun h id hc => pollTool_reports 3 h id hc)
  obtain ⟨a, b, c, rfl⟩ := List.length_eq_three.mp hlen
  simp only [List.head?_cons, Option.some.injEq] at hhead
  subst hhead
  have hb : getMachine.parse specPatterns
      (pollTool 3 [["controlvm", "vm", "acpipowerbutton"],
        ["showvminfo", "vm", "--machinereadable"]]).stdout = .ok b :=
    hchain 0 b rfl
  have hb1 : b = { name := "vm", state := Running } :=
    (Except.ok.inj ((show getMachine.parse specPatterns
      (pollTool 3 [["controlvm", "vm", "acpipowerbutton"],
        ["showvminfo", "vm", "--machinereadable"]]).stdout =
      .ok { name := "vm", state := Running } by decide).symm.trans hb)).symm
  subst hb1
  have hc : getMachine.parse specPatterns
      (pollTool 3 [["controlvm", "vm", "acpipowerbutton"],
        ["showvminfo", "vm", "--machinereadable"],
        ["controlvm", "vm", "acpipowerbutton"],
        ["showvminfo", "vm", "--machinereadable"]]).stdout = .ok c :=
    hchain 1 c rfl
  have hc1 : c = { name := "vm", state := Running } :=
    (Except.ok.inj ((show getMachine.parse specPatterns
      (pollTool 3 [["controlvm", "vm", "acpipowerbutton"],
        ["showvminfo", "vm", "--machinereadable"],
        ["controlvm", "vm", "acpipowerbutton"],
        ["showvminfo", "vm", "--machinereadable"]]).stdout =
      .ok { name := "vm", state := Running } by decide).symm.trans hc)).symm
  subst hc1
  have hr : getMachine.parse specPatterns
      (pollTool 3 [["controlvm", "vm", "acpipowerbutton"],
        ["showvminfo", "vm", "--machinereadable"],
        ["controlvm", "vm", "acpipowerbutton"],
        ["showvminfo", "vm", "--machinereadable"],
        ["controlvm", "vm", "acpipowerbutton"],
        ["showvminfo", "vm", "--machinereadable"]]).stdout = .ok r :=
    hchain 2 r rfl
  have hr1 : r = { name := "vm", state := Poweroff } :=
    (Except.ok.inj ((show getMachine.parse specPatterns
      (pollTool 3 [["controlvm", "vm", "acpipowerbutton"],
        ["showvminfo", "vm", "--machinereadable"],
        ["controlvm", "vm", "acpipowerbutton"],
        ["showvminfo", "vm", "--machinereadable"],
        ["controlvm", "vm", "acpipowerbutton"],
        ["showvminfo", "vm", "--machinereadable"]]).stdout =
      .ok { name := "vm", state := Poweroff } by decide).symm.trans hr)).symm
  subst hr1
  exact ⟨fun fuel hf => hge fuel hf, fun fuel hf => hlt fuel hf⟩

theorem Stop_pollTool_three :
    ({ name := "vm", state := Running } : machine).Stop specPatterns (pollTool 3) 3 [] =
      some ⟨none, { name := "vm", state := Poweroff },
        [["controlvm", "vm", "acpipowerbutton"], ["showvminfo", "vm", "--machinereadable"],
         ["controlvm", "vm", "acpipowerbutton"], ["showvminfo", "vm", "--machinereadable"],
         ["controlvm", "vm", "acpipowerbutton"], ["showvminfo", "vm", "--machinereadable"]]⟩ := by
  decide

/-- C10: Restart with a stale state.  Start does not refresh the record, so the
Stop inside Restart still sees the state the record had before.  On a saved
record, with a tool that accepts every command, Restart issues two power-on
commands and nothing else, whatever the fuel: no power-button signal and no
re-query.  On a paused record it issues the resume command twice before the
power-button rounds and the final power-on. -/
theorem Restart_stale_state :
    (∀ fuel : Nat,
      ({ name := "vm", state := Saved } : machine).Restart specPatterns (pollTool 1) fuel [] =
        some ⟨none, { name := "vm", state := Saved },
          [["startvm", "vm", "--type", "headless"], ["startvm", "vm", "--type", "headless"]]⟩) ∧
    ({ name := "vm", state := Paused } : machine).Restart specPatterns (pollTool 1) 1 [] =
      some ⟨none, { name := "vm", state := Poweroff },
        [["controlvm", "vm", "resume"], ["controlvm", "vm", "resume"],
         ["controlvm", "vm", "acpipowerbutton"], ["showvminfo", "vm", "--machinereadable"],
         ["startvm", "vm", "--type", "headless"]]⟩ := by
  constructor
  · intro fuel
    rfl
  · decide

/-! ### Delete, and the operations that keep the record -/

/-- C11: Delete first goes through Poweroff.  When the state is poweroff,
aborted or saved no power-off command is issued and the only command is
`unregistervm <name> --delete`; in every other state the forced power-off
command `controlvm <name> poweroff` is issued first and, when it succeeds,
`unregistervm <name> --delete` follows as the last command; when the forced
power-off fails, Delete returns that error and issues nothing more.  The error
returned otherwise is that of the unregister command. -/
theorem Delete_commands (T : Tool) (m : machine) (log : Log) :
    (m.state = Poweroff ∨ m.state = Aborted ∨ m.state = Saved →
      m.Delete T log =
        ⟨(T (log ++ [["unregistervm", m.name, "--delete"]])).err.map Error.tool, m,
          log ++ [["unregistervm", m.name, "--delete"]]⟩) ∧
    (¬ (m.state = Poweroff ∨ m.state = Aborted ∨ m.state = Saved) →
      (T (log ++ [["controlvm", m.name, "poweroff"]])).err = none →
      m.Delete T log =
        ⟨(T (log ++ [["controlvm", m.name, "poweroff"],
            ["unregistervm", m.name, "--delete"]])).err.map Error.tool, m,
          log ++ [["controlvm", m.name, "poweroff"], ["unregistervm", m.name, "--delete"]]⟩) ∧
    (∀ e : String, ¬ (m.state = Poweroff ∨ m.state = Aborted ∨ m.state = Saved) →
      (T (log ++ [["controlvm", m.name, "poweroff"]])).err = some e →
      m.Delete T log = ⟨some (.tool e), m, log ++ [["controlvm", m.name, "poweroff"]]⟩) := by
  refine ⟨?_, ?_, ?_⟩
  · intro h
    simp [machine.Delete, machine.Poweroff, vbm, h]
  · intro h herr
    simp [machine.Delete, machine.Poweroff, vbm, h, herr]
  · intro e h herr
    simp [machine.Delete, machine.Poweroff, vbm, h, herr]

/-- Delete on a saved machine, on a running machine whose power-off succeeds,
and on a running machine whose power-off fails. -/
theorem Delete_commands_witness :
    ({ name := "vm", state := Saved } : machine).Delete (fun _ => {}) [] =
      ⟨none, { name := "vm", state := Saved }, [["unregistervm", "vm", "--delete"]]⟩ ∧
    ({ name := "vm", state := Running } : machine).Delete (fun _ => {}) [] =
      ⟨none, { name := "vm", state := Running },
        [["controlvm", "vm", "poweroff"], ["unregistervm", "vm", "--delete"]]⟩ ∧
    ({ name := "vm", state := Running } : machine).Delete
        (fun _ => { err := some "exit status 1" }) [] =
      ⟨some (.tool "exit status 1"), { name := "vm", state := Running },
        [["controlvm", "vm", "poweroff"]]⟩ :=
  ⟨(Delete_commands (fun _ => {}) { name := "vm", state := Saved } []).1 (Or.inr (Or.inr rfl)),
   (Delete_commands (fun _ => {}) { name := "vm", state := Running } []).2.1 (by decide) rfl,
   (Delete_commands (fun _ => { err := some "exit status 1" })
      { name := "vm", state := Running } []).2.2 "exit status 1" (by decide) rfl⟩

/-- C15: Start, Save, Pause, Poweroff, Reset and Delete leave the record as it
was, for every record, every tool (whether its commands succeed or fail) and
every history; in particular State() after a Start from poweroff is still
poweroff. -/
theorem lifecycle_keeps_record (T : Tool) (m : machine) (log : Log) :
    (m.Start T log).m = m ∧ (m.Save T log).m = m ∧ (m.Pause T log).m = m ∧
    (m.Poweroff T log).m = m ∧ (m.Reset T log).m = m ∧ (m.Delete T log).m = m ∧
    (m.state = Poweroff → (m.Start T log).m.State = Poweroff) := by
  have hs : (m.Start T log).m = m := by
    unfold machine.Start
    split
    · rfl
    · split <;> rfl
  have hp : (m.Poweroff T log).m = m := by
    unfold machine.Poweroff
    split <;> rfl
  refine ⟨hs, ?_, ?_, hp, ?_, ?_, ?_⟩
  · unfold machine.Save
    split
    · split
      · exact hs
      · exact hs
    · split <;> rfl
  · unfold machine.Pause
    split <;> rfl
  · unfold machine.Reset
    split
    · split
      · exact hs
      · exact hs
    · rfl
  · unfold machine.Delete
    split
    · exact hp
    · exact hp
  · intro h
    rw [hs]
    exact h

/-- Start on the powered-off record `vm`: the state read afterwards is still
poweroff. -/
theorem lifecycle_keeps_record_witness :
    (({ name := "vm", state := Poweroff } : machine).Start (fun _ => {}) []).m.State =
      Poweroff :=
  (lifecycle_keeps_record (fun _ => {}) { name := "vm", state := Poweroff } []).2.2.2.2.2.2 rfl

/-- A successful Start from poweroff issues the power-on command and the state
read afterwards is still poweroff; a failing Start changes nothing either; a
Refresh then brings the reported state. -/
theorem Start_then_State :
    (({ name := "vm", state := Poweroff } : machine).Start (fun _ => {}) []).err = none ∧
    (({ name := "vm", state := Poweroff } : machine).Start (fun _ => {}) []).log =
      [["startvm", "vm", "--type", "headless"]] ∧
    (({ name := "vm", state := Poweroff } : machine).Start (fun _ => {}) []).m.State =
      Poweroff ∧
    (({ name := "vm", state := Poweroff } : machine).Start
      (fun _ => { err := some "exit status 1" }) []).m = { name := "vm", state := Poweroff } ∧
    ((({ name := "vm", state := Poweroff } : machine).Start
        (fun _ => { stdout := web01Response }) []).m.Refresh specPatterns
        (fun _ => { stdout := web01Response }) []).m.State = Running := by
  decide

/-! ### Feature flags -/

theorem land_two_pow_iff (f : Int) (i : Nat) :
    Int.land f (2 ^ i) = 2 ^ i ↔ f.testBit i = true := by
  have hcast : (2 : Int) ^ i = Int.ofNat (2 ^ i) := by simp
  rw [hcast]
  cases f with
  | ofNat a =>
    show Int.ofNat (a &&& 2 ^ i) = Int.ofNat (2 ^ i) ↔ a.testBit i = true
    rw [Int.ofNat.injEq]
    constructor
    · intro h
      have := congrArg (fun x => x.testBit i) h
      simpa [Nat.testBit_and, Nat.testBit_two_pow_self] using this
    · intro h
      apply Nat.eq_of_testBit_eq
      intro j
      rw [Nat.testBit_and, Nat.testBit_two_pow]
      by_cases hij : i = j
      · subst hij; simp [h]
      · simp [hij]
  | negSucc a =>
    show Int.ofNat (Nat.ldiff (2 ^ i) a) = Int.ofNat (2 ^ i) ↔ (!a.testBit i) = true
    rw [Int.ofNat.injEq]
    constructor
    · intro h
      have := congrArg (fun x => x.testBit i) h
      simpa [Nat.testBit_ldiff, Nat.testBit_two_pow_self] using this
    · intro h
      apply Nat.eq_of_testBit_eq
      intro j
      rw [Nat.testBit_ldiff, Nat.testBit_two_pow]
      by_cases hij : i = j
      · subst hij; simpa using h
      · simp [hij]

theorem Get_two_pow (f : Flag) (i : Nat) :
    f.Get (2 ^ i) = if f.testBit i = true then "on" else "off" := by
  unfold Flag.Get bool2string
  by_cases h : f.testBit i = true
  · rw [if_pos h, decide_eq_true ((land_two_pow_iff f i).mpr h)]
    rfl
  · rw [if_neg h, decide_eq_false (fun hh => h ((land_two_pow_iff f i).mp hh))]
    rfl

theorem testBit_two_pow_int (i k : Nat) : ((2 : Int) ^ i).testBit k = decide (i = k) := by
  have hcast : (2 : Int) ^ i = Int.ofNat (2 ^ i) := by simp
  rw [hcast]
  show (2 ^ i).testBit k = decide (i = k)
  exact Nat.testBit_two_pow

theorem testBit_foldl_lor (S : List (Fin 15)) (k : Nat) :
    ∀ z : Int, (S.foldl (fun acc i => Int.lor acc (2 ^ i.val)) z).testBit k =
      (z.testBit k || S.any (fun i => decide (i.val = k))) := by
  induction S with
  | nil => intro z; simp
  | cons i S ih =>
    intro z
    rw [List.foldl_cons, ih, Int.testBit_lor, testBit_two_pow_int]
    simp [Bool.or_assoc]

theorem testBit_orBits (S : List (Fin 15)) (j : Fin 15) :
    (orBits S).testBit j.val = decide (j ∈ S) := by
  unfold orBits
  rw [testBit_foldl_lor]
  have hz : (0 : Int).testBit j.val = false := by
    show (0 : Nat).testBit j.val = false
    simp
  rw [hz, Bool.false_or]
  by_cases h : j ∈ S
  · rw [decide_eq_true h]
    exact List.any_eq_true.mpr ⟨j, h, by simp⟩
  · rw [decide_eq_false h]
    apply Bool.eq_false_iff.mpr
    intro hany
    obtain ⟨i, hi, hij⟩ := List.any_eq_true.mp hany
    have : i = j := Fin.ext (of_decide_eq_true hij)
    exact h (this ▸ hi)

/-- C14: the 15 named flags are the single bits 2^0 .. 2^14, in order, hence
pairwise distinct; for every flag value f, f.Get of the bit 2^i is "on" when
bit i is set in f and "off" otherwise; the command built by Modify is the
fixed head, then exactly 15 flag options, in the order of the constant block,
each `--<flagname>` followed by Get of the matching bit, then the boot slots;
and a flag that is the bitwise OR of a set S of named flags renders each named
flag as on exactly when it is in S. -/
theorem flags_render_as_bits (m : machine) (f : Flag) (S : List (Fin 15)) :
    namedFlags = (List.range 15).map (fun i => (2 : Int) ^ i) ∧
    namedFlags.Nodup ∧
    (∀ i : Nat, f.Get (2 ^ i) = if f.testBit i = true then "on" else "off") ∧
    machine.Modify.args m = modifyHead m ++ flagOptions m.flag ++ bootSlots m.bootOrder ∧
    flagOptions f =
      ["--acpi", f.Get (2 ^ 0), "--ioapic", f.Get (2 ^ 1), "--rtcuseutc", f.Get (2 ^ 2),
       "--cpuhotplug", f.Get (2 ^ 3), "--pae", f.Get (2 ^ 4), "--longmode", f.Get (2 ^ 5),
       "--synthcpu", f.Get (2 ^ 6), "--hpet", f.Get (2 ^ 7), "--hwvirtex", f.Get (2 ^ 8),
       "--triplefaultreset", f.Get (2 ^ 9), "--nestedpaging", f.Get (2 ^ 10),
       "--largepages", f.Get (2 ^ 11), "--vtxvpid", f.Get (2 ^ 12), "--vtxux", f.Get (2 ^ 13),
       "--accelerate3d", f.Get (2 ^ 14)] ∧
    (∀ j : Fin 15, (orBits S).Get (2 ^ j.val) = if j ∈ S then "on" else "off") := by
  refine ⟨by decide, by decide, fun i => Get_two_pow f i, ?_, by rfl, ?_⟩
  · rw [machine.Modify.args, bootLoop_eq_bootSlots]
    rfl
  · intro j
    rw [Get_two_pow, testBit_orBits]
    simp

theorem flags_render_example :
    flagOptions (Int.lor F_acpi (Int.lor F_pae F_hwvirtex)) =
      ["--acpi", "on", "--ioapic", "off", "--rtcuseutc", "off", "--cpuhotplug", "off",
       "--pae", "on", "--longmode", "off", "--synthcpu", "off", "--hpet", "off",
       "--hwvirtex", "on", "--triplefaultreset", "off", "--nestedpaging", "off",
       "--largepages", "off", "--vtxvpid", "off", "--vtxux", "off", "--accelerate3d", "off"] := by
  decide

/-! ### The flag under the operations -/

theorem assign_keeps_flag (key val : String) (m m1 : machine)
    (h : getMachine.assign key val m = .ok m1) : m1.flag = m.flag := by
  unfold getMachine.assign at h
  split at h
  · cases h; rfl
  split at h
  · cases h; rfl
  split at h
  · cases h; rfl
  split at h
  · split at h
    · cases h
    · cases h; rfl
  split at h
  · split at h
    · cases h
    · cases h; rfl
  split at h
  · split at h
    · cases h
    · cases h; rfl
  split at h
  · cases h; rfl
  · cases h; rfl

theorem scan_keeps_flag (P : Patterns) (lines : List String) :
    ∀ m m1 : machine, getMachine.scan P lines m = .ok m1 → m1.flag = m.flag := by
  induction lines with
  | nil =>
    intro m m1 h
    unfold getMachine.scan at h
    cases h
    rfl
  | cons line rest ih =>
    intro m m1 h
    unfold getMachine.scan at h
    split at h
    · exact ih m m1 h
    · split at h
      · cases h
      · rename_i m2 hm2
        rw [ih m2 m1 h]
        exact assign_keeps_flag _ _ _ _ hm2

theorem parse_flag_zero (P : Patterns) (s : String) (r : machine)
    (h : getMachine.parse P s = .ok r) : r.flag = 0 := by
  unfold getMachine.parse at h
  split at h
  · cases h
  · rename_i m hm
    split at h
    · cases h
    · cases h
      exact scan_keeps_flag P _ _ _ hm

theorem getMachine_flag_zero (P : Patterns) (T : Tool) (id : String) (log : Log) (r : machine)
    (h : (getMachine P T id log).1 = .ok r) : r.flag = 0 := by
  unfold getMachine at h
  simp only [vbmOutErr] at h
  split at h
  · split at h <;> cases h
  · exact parse_flag_zero P _ r h

theorem Refresh_flag (P : Patterns) (T : Tool) (m : machine) (log : Log) :
    ((m.Refresh P T log).err = none → (m.Refresh P T log).m.flag = 0) ∧
    ((m.Refresh P T log).err ≠ none → (m.Refresh P T log).m = m) := by
  rw [Refresh_eq]
  cases hg : (getMachine P T (if m.name = "" then m.uUID else m.name) log).1 with
  | error e => exact ⟨fun h => (by cases h), fun _ => rfl⟩
  | ok r => exact ⟨fun _ => getMachine_flag_zero P T _ log r hg, fun h => absurd rfl h⟩

theorem Refresh_flag_cases (P : Patterns) (T : Tool) (m : machine) (log : Log) :
    (m.Refresh P T log).m.flag = m.flag ∨ (m.Refresh P T log).m.flag = 0 := by
  cases h : (m.Refresh P T log).err with
  | none => exact Or.inr ((Refresh_flag P T m log).1 h)
  | some e =>
    left
    rw [(Refresh_flag P T m log).2 (by rw [h]; exact Option.some_ne_none e)]

theorem Modify_flag (P : Patterns) (T : Tool) (m : machine) (log : Log) :
    ((m.Modify P T log).err = none → (m.Modify P T log).m.flag = 0) ∧
    ((m.Modify P T log).err ≠ none → (m.Modify P T log).m = m) := by
  unfold machine.Modify
  split
  · exact ⟨fun h => (by cases h), fun _ => rfl⟩
  · exact Refresh_flag P T m _

theorem Stop_loop_flag (P : Patterns) (T : Tool) (fuel : Nat) :
    ∀ (m : machine) (log : Log) (r : Res), machine.Stop.loop P T fuel m log = some r →
      r.m.flag = m.flag ∨ r.m.flag = 0 := by
  induction fuel with
  | zero =>
    intro m log r h
    unfold machine.Stop.loop at h
    split at h
    · cases h; exact Or.inl rfl
    · cases h
  | succ fuel ih =>
    intro m log r h
    unfold machine.Stop.loop at h
    split at h
    · cases h; exact Or.inl rfl
    · split at h
      · cases h; exact Or.inl rfl
      · simp only at h
        split at h
        · cases h
          exact Refresh_flag_cases P T m _
        · rcases ih _ _ r h with h1 | h1
          · rw [h1]
            exact Refresh_flag_cases P T m _
          · exact Or.inr h1

theorem Start_keeps (T : Tool) (m : machine) (log : Log) : (m.Start T log).m = m := by
  unfold machine.Start
  split
  · rfl
  · split <;> rfl

theorem Stop_flag (P : Patterns) (T : Tool) (fuel : Nat) (m : machine) (log : Log) (r : Res)
    (h : m.Stop P T fuel log = some r) : r.m.flag = m.flag ∨ r.m.flag = 0 := by
  unfold machine.Stop at h
  split at h
  · cases h; exact Or.inl rfl
  · split at h
    · split at h
      · cases h
        rw [Start_keeps]
        exact Or.inl rfl
      · have := Stop_loop_flag P T fuel _ _ r h
        rwa [Start_keeps] at this
    · exact Stop_loop_flag P T fuel _ _ r h

theorem Restart_rest_flag (P : Patterns) (T : Tool) (fuel : Nat) (m : machine) (log : Log)
    (r : Res) (h : machine.Restart.rest P T fuel m log = some r) :
    r.m.flag = m.flag ∨ r.m.flag = 0 := by
  unfold machine.Restart.rest at h
  split at h
  · cases h
  · rename_i r1 hr1
    have h1 := Stop_flag P T fuel m log r1 hr1
    split at h
    · cases h; exact h1
    · cases h
      rw [Start_keeps]
      exact h1

theorem Restart_flag (P : Patterns) (T : Tool) (fuel : Nat) (m : machine) (log : Log) (r : Res)
    (h : m.Restart P T fuel log = some r) : r.m.flag = m.flag ∨ r.m.flag = 0 := by
  unfold machine.Restart at h
  split at h
  · split at h
    · cases h
      rw [Start_keeps]
      exact Or.inl rfl
    · have := Restart_rest_flag P T fuel _ _ r h
      rwa [Start_keeps] at this
  · exact Restart_rest_flag P T fuel _ _ r h

theorem Poweroff_keeps (T : Tool) (m : machine) (log : Log) : (m.Poweroff T log).m = m := by
  unfold machine.Poweroff
  split <;> rfl

theorem lifecycle_keeps_record_flag (T : Tool) (m : machine) (log : Log) :
    (m.Start T log).m.flag = m.flag ∧ (m.Save T log).m.flag = m.flag ∧
    (m.Pause T log).m.flag = m.flag ∧ (m.Poweroff T log).m.flag = m.flag ∧
    (m.Reset T log).m.flag = m.flag ∧ (m.Delete T log).m.flag = m.flag := by
  refine ⟨by rw [Start_keeps], ?_, ?_, by rw [Poweroff_keeps], ?_, ?_⟩
  · unfold machine.Save
    split
    · split <;> rw [Start_keeps]
    · split <;> rfl
  · unfold machine.Pause
    split <;> rfl
  · unfold machine.Reset
    split
    · split <;> rw [Start_keeps]
    · rfl
  · unfold machine.Delete
    split <;> rw [Poweroff_keeps]

/-- C12, as amended: the flag of a record changes by SetFlag, which replaces
it, and by a successful re-query, which replaces the whole record by the
freshly parsed one, whose flag is 0: a successful Refresh or Modify leaves the
flag 0, a failed one leaves the record as it was, and Stop and Restart, which
may re-query, leave the flag as it was or 0.  Every other operation (Start,
Save, Pause, Poweroff, Reset, Delete, the six peripheral operations and the ten
other setters) leaves the flag equal to what it was before the call. -/
theorem flag_changes_only_by_SetFlag_or_requery (P : Patterns) (T : Tool) (m : machine)
    (log : Log) (fuel : Nat) :
    ((m.Start T log).m.flag = m.flag ∧ (m.Save T log).m.flag = m.flag ∧
      (m.Pause T log).m.flag = m.flag ∧ (m.Poweroff T log).m.flag = m.flag ∧
      (m.Reset T log).m.flag = m.flag ∧ (m.Delete T log).m.flag = m.flag) ∧
    ((∀ (n : Int) (name : String) (rule : PFRule), (m.AddNATPF T n name rule log).m.flag = m.flag) ∧
      (∀ (n : Int) (name : String), (m.DelNATPF T n name log).m.flag = m.flag) ∧
      (∀ (n : Int) (nic : NIC), (m.SetNIC T n nic log).m.flag = m.flag) ∧
      (∀ (name : String) (ctl : StorageController),
        (m.AddStorageCtl T name ctl log).m.flag = m.flag) ∧
      (∀ name : String, (m.DelStorageCtl T name log).m.flag = m.flag) ∧
      (∀ (ctlName : String) (medium : StorageMedium),
        (m.AttachStorage T ctlName medium log).m.flag = m.flag)) ∧
    ((∀ s : String, (m.SetName s).flag = m.flag) ∧ (∀ s : String, (m.SetUUID s).flag = m.flag) ∧
      (∀ s : MachineState, (m.SetState s).flag = m.flag) ∧
      (∀ k : Nat, (m.SetCPUs k).flag = m.flag) ∧ (∀ k : Nat, (m.SetMemory k).flag = m.flag) ∧
      (∀ k : Nat, (m.SetVRAM k).flag = m.flag) ∧
      (∀ s : String, (m.SetCfgFile s).flag = m.flag) ∧
      (∀ s : String, (m.SetBaseFolder s).flag = m.flag) ∧
      (∀ s : String, (m.SetOSType s).flag = m.flag) ∧
      (∀ b : List String, (m.SetBootOrder b).flag = m.flag)) ∧
    (∀ f : Flag, (m.SetFlag f).flag = f) ∧
    (((m.Refresh P T log).err = none → (m.Refresh P T log).m.flag = 0) ∧
      ((m.Refresh P T log).err ≠ none → (m.Refresh P T log).m = m)) ∧
    (((m.Modify P T log).err = none → (m.Modify P T log).m.flag = 0) ∧
      ((m.Modify P T log).err ≠ none → (m.Modify P T log).m = m)) ∧
    (∀ r : Res, m.Stop P T fuel log = some r → r.m.flag = m.flag ∨ r.m.flag = 0) ∧
    (∀ r : Res, m.Restart P T fuel log = some r → r.m.flag = m.flag ∨ r.m.flag = 0) := by
  have hk := lifecycle_keeps_record_flag T m log
  refine ⟨hk, ⟨fun _ _ _ => rfl, fun _ _ => rfl, fun _ _ => rfl, fun _ _ => rfl, fun _ => rfl,
    fun _ _ => rfl⟩, ⟨fun _ => rfl, fun _ => rfl, fun _ => rfl, fun _ => rfl, fun _ => rfl,
    fun _ => rfl, fun _ => rfl, fun _ => rfl, fun _ => rfl, fun _ => rfl⟩, fun _ => rfl,
    Refresh_flag P T m log, Modify_flag P T m log, fun r h => Stop_flag P T fuel m log r h,
    fun r h => Restart_flag P T fuel m log r h⟩

/-- A record with the ACPI flag, refreshed from the response of the spec's
example: the Refresh succeeds and the flag is 0 afterwards; a Start on the same
record leaves the flag. -/
theorem flag_changes_only_by_SetFlag_or_requery_witness :
    (({ name := "web01", flag := F_acpi } : machine).Refresh specPatterns
        (fun _ => { stdout := web01Response }) []).m.flag = 0 ∧
    (({ name := "web01", flag := F_acpi } : machine).Start
        (fun _ => { stdout := web01Response }) []).m.flag = F_acpi :=
  ⟨(flag_changes_only_by_SetFlag_or_requery specPatterns (fun _ => { stdout := web01Response })
      { name := "web01", flag := F_acpi } [] 0).2.2.2.2.1.1 (by decide),
   (flag_changes_only_by_SetFlag_or_requery specPatterns (fun _ => { stdout := web01Response })
      { name := "web01", flag := F_acpi } [] 0).1.1⟩

/-- Operations other than SetFlag that change the flag: on a record whose flag
is the ACPI bit, a successful Refresh, a successful Modify and a Stop from
running each leave the flag 0. -/
theorem flag_reset_counterexample :
    ({ name := "web01", flag := F_acpi } : machine).flag = 1 ∧
    (({ name := "web01", flag := F_acpi } : machine).Refresh specPatterns
        (fun _ => { stdout := web01Response }) []).err = none ∧
    (({ name := "web01", flag := F_acpi } : machine).Refresh specPatterns
        (fun _ => { stdout := web01Response }) []).m.flag = 0 ∧
    (({ name := "web01", flag := F_acpi } : machine).Modify specPatterns
        (fun _ => { stdout := web01Response }) []).err = none ∧
    (({ name := "web01", flag := F_acpi } : machine).Modify specPatterns
        (fun _ => { stdout := web01Response }) []).m.flag = 0 ∧
    (({ name := "vm", state := Running, flag := F_acpi } : machine).Stop specPatterns
        (pollTool 1) 1 []).map (fun r => (r.err, r.m.flag)) = some (none, 0) := by
  decide

/-! ### listMachines -/

theorem listIds_nomatch (P : Patterns) (line : String) (rest : List String)
    (h : P.reVMNameUUID line = none) : listIds P (line :: rest) = listIds P rest := by
  simp [listIds, List.filterMap_cons, h]

theorem listIds_match (P : Patterns) (line : String) (rest : List String)
    (res : String × String) (h : P.reVMNameUUID line = some res) :
    listIds P (line :: rest) = res.1 :: listIds P rest := by
  simp [listIds, List.filterMap_cons, h]

theorem detailAt_zero (P : Patterns) (T : Tool) (ids : List String) (log : Log) (id : String) :
    detailAt P T ids log 0 id = (getMachine P T id log).1 := by
  simp [detailAt]

theorem detailAt_succ (P : Patterns) (T : Tool) (id0 : String) (ids : List String) (log : Log)
    (k : Nat) (id : String) :
    detailAt P T (id0 :: ids) log (k + 1) id =
      detailAt P T ids (log ++ [detailQuery id0]) k id := by
  simp [detailAt]

theorem listMachines_scan_ok (P : Patterns) (T : Tool) (lines : List String) :
    ∀ (ms : List machine) (log : Log) (rs : List machine),
      (listMachines.scan P T lines ms log).1 = .ok rs →
      ∃ new : List machine, rs = ms ++ new ∧ new.length = (listIds P lines).length ∧
        (listMachines.scan P T lines ms log).2 = log ++ (listIds P lines).map detailQuery ∧
        ∀ (k : Nat) (id : String), (listIds P lines)[k]? = some id →
          ∃ r, new[k]? = some r ∧ detailAt P T (listIds P lines) log k id = .ok r := by
  induction lines with
  | nil =>
    intro ms log rs h
    simp only [listMachines.scan] at h
    cases h
    exact ⟨[], by simp, rfl, by simp [listMachines.scan, listIds], by simp [listIds]⟩
  | cons line rest ih =>
    intro ms log rs h
    unfold listMachines.scan at h ⊢
    cases hm : P.reVMNameUUID line with
    | none =>
      simp only [hm] at h ⊢
      rw [listIds_nomatch P line rest hm]
      exact ih ms log rs h
    | some res =>
      simp only [hm] at h ⊢
      rw [listIds_match P line rest res hm]
      cases hg : (getMachine P T res.1 log).1 with
      | error e =>
        simp only [hg] at h
        cases h
      | ok m =>
        simp only [hg] at h ⊢
        rw [getMachine_log] at h ⊢
        obtain ⟨new, hrs, hlen, hlog, hidx⟩ := ih (ms ++ [m]) _ rs h
        refine ⟨m :: new, by simp [hrs], by simp [hlen], by rw [hlog]; simp, ?_⟩
        intro k id hk
        cases k with
        | zero =>
          simp only [List.getElem?_cons_zero, Option.some.injEq] at hk
          subst hk
          exact ⟨m, List.getElem?_cons_zero, by rw [detailAt_zero, hg]⟩
        | succ k =>
          simp only [List.getElem?_cons_succ] at hk ⊢
          rw [detailAt_succ]
          exact hidx k id hk

theorem listMachines_scan_error (P : Patterns) (T : Tool) (lines : List String) :
    ∀ (ms : List machine) (log : Log) (e : Error),
      (listMachines.scan P T lines ms log).1 = .error e →
      ∃ (k : Nat) (id : String), (listIds P lines)[k]? = some id ∧
        detailAt P T (listIds P lines) log k id = .error e ∧
        (∀ (j : Nat) (idj : String), j < k → (listIds P lines)[j]? = some idj →
          ∃ r, detailAt P T (listIds P lines) log j idj = .ok r) ∧
        (listMachines.scan P T lines ms log).2 =
          log ++ ((listIds P lines).take (k + 1)).map detailQuery := by
  induction lines with
  | nil =>
    intro ms log e h
    simp only [listMachines.scan] at h
    cases h
  | cons line rest ih =>
    intro ms log e h
    unfold listMachines.scan at h ⊢
    cases hm : P.reVMNameUUID line with
    | none =>
      simp only [hm] at h ⊢
      rw [listIds_nomatch P line rest hm]
      exact ih ms log e h
    | some res =>
      simp only [hm] at h ⊢
      rw [listIds_match P line rest res hm]
      cases hg : (getMachine P T res.1 log).1 with
      | error e1 =>
        simp only [hg] at h ⊢
        cases h
        refine ⟨0, res.1, List.getElem?_cons_zero, by rw [detailAt_zero, hg], ?_,
          by rw [getMachine_log]; simp⟩
        intro j idj hj
        omega
      | ok m =>
        simp only [hg] at h ⊢
        rw [getMachine_log] at h ⊢
        obtain ⟨k, id, hk, hfail, hbefore, hlog⟩ := ih (ms ++ [m]) _ e h
        refine ⟨k + 1, id, by simpa using hk, by rw [detailAt_succ]; exact hfail, ?_,
          by rw [hlog]; simp⟩
        intro j idj hj hjd
        cases j with
        | zero =>
          simp only [List.getElem?_cons_zero, Option.some.injEq] at hjd
          subst hjd
          exact ⟨m, by rw [detailAt_zero, hg]⟩
        | succ j =>
          simp only [List.getElem?_cons_succ] at hjd
          rw [detailAt_succ]
          exact hbefore j idj (by omega) hjd

theorem listMachines_of_scan (P : Patterns) (T : Tool) (log : Log)
    (hlist : (T (log ++ [["list", "vms"]])).err = none)
    (hshort : ∀ l ∈ rawLines (T (log ++ [["list", "vms"]])).stdout.toList,
      (String.mk l).utf8ByteSize < MaxScanTokenSize) :
    listMachines P T log =
      match (listMachines.scan P T (responseLines (T (log ++ [["list", "vms"]])).stdout) []
          (log ++ [["list", "vms"]])).1 with
      | .error e =>
        (.error e, (listMachines.scan P T (responseLines (T (log ++ [["list", "vms"]])).stdout)
          [] (log ++ [["list", "vms"]])).2)
      | .ok ms =>
        (.ok ms, (listMachines.scan P T (responseLines (T (log ++ [["list", "vms"]])).stdout)
          [] (log ++ [["list", "vms"]])).2) := by
  have hs : scanLines (T (log ++ [["list", "vms"]])).stdout =
      (responseLines (T (log ++ [["list", "vms"]])).stdout, none) := by
    unfold scanLines responseLines
    exact scanTokens_short _ hshort
  unfold listMachines
  simp only [vbmOut, hlist, Option.map_none', hs]

theorem listMachines_long_line (P : Patterns) (T : Tool) (log : Log) (n : Nat)
    (hlist : (T (log ++ [["list", "vms"]])).err = none)
    (hout : (T (log ++ [["list", "vms"]])).stdout = String.mk (List.replicate n 'x'))
    (hn : MaxScanTokenSize ≤ n) :
    listMachines P T log = (.error .ErrTooLong, log ++ [["list", "vms"]]) := by
  unfold listMachines
  simp only [vbmOut, hlist, hout, Option.map_none', scanLines_long_line n hn,
    listMachines.scan]

/-- C13, as amended: for every listing output whose lines are all shorter than
the scanner limit of 65536 bytes, listMachines issues, after `list vms`, one
detail query per line that the listing pattern matches, in listing order, each
addressed by capture group 1 of that line (for a line `"name" {UUID}` that is
the name); lines that do not match are skipped.  When every detail query
succeeds it returns the resulting records in the same order, one per matching
line; when a detail query fails after the earlier ones succeeded, it returns
that error and no list, and issues no further query. -/
theorem listMachines_detail_queries (P : Patterns) (T : Tool) (log : Log)
    (hlist : (T (log ++ [["list", "vms"]])).err = none)
    (hshort : ∀ l ∈ rawLines (T (log ++ [["list", "vms"]])).stdout.toList,
      (String.mk l).utf8ByteSize < MaxScanTokenSize) :
    ((∀ (k : Nat) (id : String), (listedIds P T log)[k]? = some id →
        ∃ r, detailAt P T (listedIds P T log) (log ++ [["list", "vms"]]) k id = .ok r) →
      ∃ ms : List machine,
        listMachines P T log =
          (.ok ms, log ++ [["list", "vms"]] ++ (listedIds P T log).map detailQuery) ∧
        ms.length = (listedIds P T log).length ∧
        ∀ (k : Nat) (id : String), (listedIds P T log)[k]? = some id →
          ∃ r, ms[k]? = some r ∧
            detailAt P T (listedIds P T log) (log ++ [["list", "vms"]]) k id = .ok r) ∧
    (∀ (k : Nat) (id : String) (e : Error), (listedIds P T log)[k]? = some id →
      detailAt P T (listedIds P T log) (log ++ [["list", "vms"]]) k id = .error e →
      (∀ (j : Nat) (idj : String), j < k → (listedIds P T log)[j]? = some idj →
        ∃ r, detailAt P T (listedIds P T log) (log ++ [["list", "vms"]]) j idj = .ok r) →
      listMachines P T log =
        (.error e,
          log ++ [["list", "vms"]] ++ ((listedIds P T log).take (k + 1)).map detailQuery)) := by
  have hL := listMachines_of_scan P T log hlist hshort
  constructor
  · intro hall
    cases hsc : (listMachines.scan P T (responseLines (T (log ++ [["list", "vms"]])).stdout) []
        (log ++ [["list", "vms"]])).1 with
    | error e =>
      obtain ⟨k, id, hk, hfail, _, _⟩ := listMachines_scan_error P T _ _ _ e hsc
      obtain ⟨r, hr⟩ := hall k id hk
      unfold listedIds at hr
      rw [hfail] at hr
      cases hr
    | ok rs =>
      obtain ⟨new, hrs, hlen, hlog, hidx⟩ := listMachines_scan_ok P T _ _ _ rs hsc
      rw [hsc] at hL
      simp only [List.nil_append] at hrs
      subst hrs
      exact ⟨rs, by rw [hL, hlog]; rfl, hlen, hidx⟩
  · intro k id e hk hfail hbefore
    cases hsc : (listMachines.scan P T (responseLines (T (log ++ [["list", "vms"]])).stdout) []
        (log ++ [["list", "vms"]])).1 with
    | ok rs =>
      obtain ⟨new, _, _, _, hidx⟩ := listMachines_scan_ok P T _ _ _ rs hsc
      obtain ⟨r, _, hr⟩ := hidx k id hk
      unfold listedIds at hfail
      rw [hr] at hfail
      cases hfail
    | error e1 =>
      obtain ⟨k1, id1, hk1, hfail1, hbefore1, hlog1⟩ := listMachines_scan_error P T _ _ _ e1 hsc
      have hkk : k1 = k := by
        rcases Nat.lt_trichotomy k1 k with hlt | heq | hgt
        · obtain ⟨r, hr⟩ := hbefore k1 id1 hlt hk1
          unfold listedIds at hr
          rw [hfail1] at hr
          cases hr
        · exact heq
        · obtain ⟨r, hr⟩ := hbefore1 k id hgt hk
          unfold listedIds at hfail
          rw [hr] at hfail
          cases hfail
      subst hkk
      have hid : id1 = id := by
        unfold listedIds at hk
        rw [hk1] at hk
        exact Option.some.inj hk
      subst hid
      have he : e1 = e := by
        unfold listedIds at hfail
        rw [hfail1] at hfail
        exact Except.error.inj hfail
      subst he
      rw [hL, hsc]
      simp only [hlog1]
      rfl

/-- The listing of the tool with the one machine web01: one detail query,
addressed by the name, and one record. -/
theorem listMachines_detail_queries_witness :
    ∃ ms : List machine,
      listMachines specPatterns web01Tool [] =
        (.ok ms, [] ++ [["list", "vms"]] ++ (listedIds specPatterns web01Tool []).map detailQuery) ∧
      ms.length = (listedIds specPatterns web01Tool []).length ∧
      ∀ (k : Nat) (id : String), (listedIds specPatterns web01Tool [])[k]? = some id →
        ∃ r, ms[k]? = some r ∧
          detailAt specPatterns web01Tool (listedIds specPatterns web01Tool [])
            ([] ++ [["list", "vms"]]) k id = .ok r :=
  (listMachines_detail_queries specPatterns web01Tool [] (by decide) (by decide)).1
    (fun k id hk => by
      have hids : listedIds specPatterns web01Tool [] = ["web01"] := by decide
      rw [hids] at hk ⊢
      cases k with
      | zero =>
        simp only [List.getElem?_cons_zero, Option.some.injEq] at hk
        subst hk
        exact ⟨{ name := "web01", uUID := "1234", state := Running, memory := 2048, cPUs := 2,
                 vRAM := 16, cfgFile := "/vms/web01/web01.vbox", baseFolder := "/vms/web01" },
          by decide⟩
      | succ k => simp at hk)

/-- A listing line `"web01" {1234}`: the detail query is addressed by the name
web01, not by the UUID 1234; and a listing output that is one line of 65536
letters yields an error and no list. -/
theorem listMachines_counterexample :
    specNameUUID "\"web01\" \x7b1234\x7d" = some ("web01", "1234") ∧
    listMachines specPatterns web01Tool [] =
      (.ok [{ name := "web01", uUID := "1234", state := Running, memory := 2048, cPUs := 2,
              vRAM := 16, cfgFile := "/vms/web01/web01.vbox", baseFolder := "/vms/web01" }],
        [["list", "vms"], ["showvminfo", "web01", "--machinereadable"]]) ∧
    listMachines specPatterns
        (fun _ => { stdout := String.mk (List.replicate MaxScanTokenSize 'x') }) [] =
      (.error .ErrTooLong, [["list", "vms"]]) := by
  exact ⟨by decide, by decide,
    listMachines_long_line specPatterns _ [] MaxScanTokenSize rfl rfl (le_refl _)⟩

end VirtualBox
